import Mathlib

/-!
Verification of the `ai_modeler` Blender addon core: a rule-based plan
compiler (`rules_planner.py`), a transactional plan executor
(`executor.py`), and a remote-planner response decoder
(`planner_client.py`).

The embedding is shallow: Python dataclasses become structures, the
dynamically-typed JSON-ish parameter bags become the inductive `JVal`,
Python floats are idealised as exact rationals (`ℚ`), raised exceptions
become an `Option String` / `Except String` error channel, and the
mutable Blender scene consulted through `bpy` becomes an explicit
`World` state threaded through the step handlers.  Blender guarantees
that data-block names are unique; creation and renaming therefore go
through an explicit fresh-name function (`uniquifyName`) whose exact
suffix scheme abstracts Blender's ".001" style suffixes.
-/

/-- A JSON-like dynamically typed value, standing in for the `Any`-typed
parameter values (`dict[str, Any]`) travelling through the addon.
Numbers are idealised as exact rationals. -/
inductive JVal where
  | null
  | bool (b : Bool)
  | num (q : ℚ)
  | str (s : String)
  | arr (elems : List JVal)
  | obj (fields : List (String × JVal))

/-- Parameter bags `dict[str, Any]`: insertion-ordered association lists
with (Python-dict) unique keys; lookup returns the first binding. -/
abbrev Params := List (String × JVal)

/-- `d.get(key)` on a Python dict: first binding for the key, if any. -/
def dictGet (kvs : List (String × JVal)) (key : String) : Option JVal :=
  (kvs.find? (fun kv => kv.1 = key)).map (fun kv => kv.2)

/-- Python truthiness of a JSON-ish value (`bool(v)`): `None`, `False`,
`0`, the empty string, the empty list and the empty dict are falsy. -/
def pyFalsy : JVal → Bool
  | .null => true
  | .bool b => !b
  | .num q => q = 0
  | .str s => s.isEmpty
  | .arr xs => xs.isEmpty
  | .obj kvs => kvs.isEmpty

/-- Truthiness of `d.get(k)`: a missing key yields `None`, which is falsy. -/
def pyFalsyOpt : Option JVal → Bool
  | none => true
  | some v => pyFalsy v

/-- Python `str(v)`.  Strings pass through unchanged; the textual
rendering of the remaining cases only ever flows into log/error strings
and the `id`/`prompt`/`units` fields, never into a property verified
here, so it is approximated. -/
def pyStr : JVal → String
  | .str s => s
  | .null => "None"
  | .bool true => "True"
  | .bool false => "False"
  | .num q => toString q
  | .arr _ => "<list>"
  | .obj _ => "<dict>"

/-- Python `float(v)` as used on parameter values.  Numbers (and bools)
convert; any other value raises.  (Python would also parse numeric
strings; the planner never produces string-valued numeric parameters and
no verified property depends on that path, so it raises here.) -/
def pyFloat : JVal → Except String ℚ
  | .num q => .ok q
  | .bool b => .ok (if b then 1 else 0)
  | .str _ => .error "ValueError: could not convert string to float"
  | .null => .error "TypeError: float() argument must not be None"
  | .arr _ => .error "TypeError: float() argument must be a number"
  | .obj _ => .error "TypeError: float() argument must be a number"

/-- Python `int(v)` on parameter values; floats truncate toward zero. -/
def pyInt : JVal → Except String Int
  | .num q => .ok (q.num.tdiv q.den)
  | .bool b => .ok (if b then 1 else 0)
  | .str _ => .error "ValueError: invalid literal for int"
  | .null => .error "TypeError: int() argument must not be None"
  | .arr _ => .error "TypeError: int() argument must be a number"
  | .obj _ => .error "TypeError: int() argument must be a number"

/-- ASCII uppercasing of one character (`str.upper`; the unit tokens the
addon compares are ASCII, and CJK characters have no case). -/
def upperChar (c : Char) : Char :=
  if c.toNat ≥ 97 && c.toNat ≤ 122 then Char.ofNat (c.toNat - 32) else c

/-- ASCII lowercasing of one character (`str.lower`). -/
def lowerChar (c : Char) : Char :=
  if c.toNat ≥ 65 && c.toNat ≤ 90 then Char.ofNat (c.toNat + 32) else c

/-- `s.upper()` (kernel-computable replacement for `String.toUpper`). -/
def strUpper (s : String) : String := String.mk (s.toList.map upperChar)

/-- `s.lower()`. -/
def strLower (s : String) : String := String.mk (s.toList.map lowerChar)

/-- `needle in haystack` on Python strings: contiguous substring test. -/
def listInfix (needle : List Char) : List Char → Bool
  | [] => needle.isEmpty
  | c :: rest => needle.isPrefixOf (c :: rest) || listInfix needle rest

/-- `needle in haystack` for strings. -/
def strContains (haystack needle : String) : Bool :=
  listInfix needle.toList haystack.toList

/-- `any(keyword in text for keyword in keywords)`. -/
def containsAny (text : String) (keywords : List String) : Bool :=
  keywords.any (fun k => strContains text k)

/-- `schemas.PlanStep`: one modeling step.  `notes` keeps the raw value
the remote planner supplied (`str | None` in practice). -/
structure PlanStep where
  op : String
  params : Params
  notes : Option JVal

/-- `schemas.ModelingPlan`. -/
structure ModelingPlan where
  id : String
  prompt : String
  units : String
  steps : List PlanStep

/-- `schemas.ExecutionResult`.  `status` is one of the literal strings
"success", "partial", "fail" exactly as in the source. -/
structure ExecutionResult where
  status : String
  objects : List String
  diff : List (String × Params)
  error : Option String

/-- `ModelingExecutor._convert_length`: convert a length to meters.
`unit` is `str | None` as in the source annotation. -/
def convert_length (value : ℚ) (unit : Option String) : ℚ :=
  match unit with
  | none => value
  | some u =>
    if strUpper u = "M" then value
    else if strUpper u = "CM" then value / 100
    else if strUpper u = "MM" then value / 1000
    else value

/-- A `units` parameter value on its way into `_convert_length`: absent
and `None` both mean "no unit"; a non-string value would hit
`unit.upper()` and raise `AttributeError`. -/
def unitArg : Option JVal → Except String (Option String)
  | none => .ok none
  | some .null => .ok none
  | some (.str s) => .ok (some s)
  | some _ => .error "AttributeError: upper"

/-- C6: for every value `v`, `_convert_length` returns `v/100` for
centimeter tokens, `v/1000` for millimeter tokens, `v` unchanged for
meters or a missing unit, and `v` unchanged (non-fatally — the function
is total) for any unrecognized token; multiplying a converted
centimeter/millimeter value back by 100/1000 recovers `v` exactly in the
rational idealisation of floats. -/
theorem c6_convert_length (v : ℚ) (u : String) :
    convert_length v none = v ∧
    (strUpper u = "CM" → convert_length v (some u) = v / 100) ∧
    (strUpper u = "MM" → convert_length v (some u) = v / 1000) ∧
    (strUpper u = "M" → convert_length v (some u) = v) ∧
    (strUpper u ≠ "M" → strUpper u ≠ "CM" → strUpper u ≠ "MM" →
      convert_length v (some u) = v) ∧
    (strUpper u = "CM" → convert_length v (some u) * 100 = v) ∧
    (strUpper u = "MM" → convert_length v (some u) * 1000 = v) := by
  refine ⟨rfl, ?_, ?_, ?_, ?_, ?_, ?_⟩ <;> intro h
  · simp [convert_length, h]
  · simp [convert_length, h]
  · simp [convert_length, h]
  · intro h2 h3; simp [convert_length, h, h2, h3]
  · simp [convert_length, h]
  · simp [convert_length, h]

/-- Witness for C6 at concrete inputs: 50 cm becomes 0.5 m and the
round-trip recovers 50; an unknown token "FT" passes through. -/
theorem c6_convert_length_witness :
    strUpper "cm" = "CM" ∧ convert_length 50 (some "cm") = 50 / 100 ∧
    convert_length 50 (some "cm") * 100 = 50 ∧
    convert_length 50 (some "FT") = 50 := by
  have h1 : strUpper "cm" = "CM" := by decide
  have h2 := (c6_convert_length 50 "cm").2.1 h1
  have h3 := (c6_convert_length 50 "cm").2.2.2.2.2.1 h1
  have hne1 : strUpper "FT" ≠ "M" := by decide
  have hne2 : strUpper "FT" ≠ "CM" := by decide
  have hne3 : strUpper "FT" ≠ "MM" := by decide
  have h4 := (c6_convert_length 50 "FT").2.2.2.2.1 hne1 hne2 hne3
  exact ⟨h1, h2, h3, h4⟩

/-! ## Rule-based planner (`rules_planner.py`) -/

/-- `rules_planner.ParsedDimension`. -/
structure ParsedDimension where
  value : ℚ
  unit : String

/-- `_UNIT_ALIAS` applied to a matched (already lowercased) unit token.
The fallback `unit_raw.upper()` mirrors the source; it is unreachable
because the pattern only matches tokens listed here. -/
def unitAlias (u : String) : String :=
  if u = "米" then "M"
  else if u = "m" then "M"
  else if u = "厘米" then "CM"
  else if u = "cm" then "CM"
  else if u = "毫米" then "MM"
  else if u = "mm" then "MM"
  else strUpper u

/-- ASCII digit test (`\d` of the dimension regex, restricted to the
ASCII digits that occur in prompts). -/
def isDigitChar (c : Char) : Bool := c.toNat ≥ 48 && c.toNat ≤ 57

/-- Value of an ASCII digit character. -/
def digitVal (c : Char) : ℕ := c.toNat - 48

/-- Greedily take a maximal run of digits (the `\d+` pieces). -/
def takeDigits : List Char → List ℕ × List Char
  | [] => ([], [])
  | c :: rest =>
    if isDigitChar c then
      let (ds, r) := takeDigits rest
      (digitVal c :: ds, r)
    else ([], c :: rest)

/-- Digits to the natural number they denote. -/
def digitsToNat (ds : List ℕ) : ℕ := ds.foldl (fun acc d => acc * 10 + d) 0

/-- The unit alternatives of the regex `(mm|cm|m|米|厘米|毫米)`, tried in
the source's alternation order. -/
def unitAlts : List String := ["mm", "cm", "m", "米", "厘米", "毫米"]

/-- Try each unit alternative in order as a prefix of the remaining
characters (regex alternation semantics). -/
def tryUnits : List String → List Char → Option (String × List Char)
  | [], _ => none
  | u :: us, cs =>
    if u.toList.isPrefixOf cs then some (u, cs.drop u.toList.length)
    else tryUnits us cs

/-- `\s` (the ASCII whitespace occurring in prompts). -/
def isWsChar (c : Char) : Bool :=
  c = ' ' || c = '\t' || c = '\n' || c = '\r'

/-- Try to match the regex `(\d+(?:\.\d+)?)\s*(mm|cm|m|米|厘米|毫米)`
anchored at the head of `cs`; on success return the parsed dimension
(unit still in its raw lowercased form) and the rest of the input. -/
def matchDimAt (cs : List Char) : Option (ParsedDimension × List Char) :=
  let (ds, r1) := takeDigits cs
  if ds.isEmpty then none
  else
    let intPart : ℚ := (digitsToNat ds : ℕ)
    let (value, r2) : ℚ × List Char :=
      match r1 with
      | '.' :: r1' =>
        let (fds, r2') := takeDigits r1'
        if fds.isEmpty then (intPart, r1)
        else (intPart + (digitsToNat fds : ℚ) / ((10 : ℚ) ^ fds.length), r2')
      | _ => (intPart, r1)
    let r3 := r2.dropWhile isWsChar
    match tryUnits unitAlts r3 with
    | none => none
    | some (u, r4) => some (⟨value, u⟩, r4)

/-- `re.finditer` scan: leftmost matches, each match consumed, otherwise
advance one character.  Fuel is the input length (each step consumes at
least one character, so it never runs out). -/
def scanDims : List Char → ℕ → List ParsedDimension
  | _, 0 => []
  | [], _ => []
  | c :: rest, fuel + 1 =>
    match matchDimAt (c :: rest) with
    | some (d, r) => d :: scanDims r fuel
    | none => scanDims rest fuel

/-- `RulesPlanner._extract_dimensions` (the regex runs over
`prompt.lower()`, and the matched raw unit goes through `_UNIT_ALIAS`). -/
def extract_dimensions (prompt : String) : List ParsedDimension :=
  let lowered := (strLower prompt).toList
  (scanDims lowered (lowered.length + 1)).map
    (fun d => ⟨d.value, unitAlias d.unit⟩)

/-- `RulesPlanner._match_material`: keyword to preset id, first match
wins, fixed priority order. -/
def match_material (prompt : String) : Option String :=
  if containsAny prompt ["金属", "metal"] then some "metal_brushed"
  else if containsAny prompt ["塑料", "plastic"] then some "plastic"
  else if containsAny prompt ["木", "wood"] then some "wood"
  else none

/-- `RulesPlanner.generate_plan`.  The fresh `uuid.uuid4()` identifier is
the only non-deterministic input and is passed in as `planId`. -/
def generate_plan (planId : String) (prompt : String) (units : String) :
    ModelingPlan :=
  let normalized := strLower prompt
  let default_unit := if units.isEmpty then "M" else units
  let dims := extract_dimensions prompt
  let size_value : ℚ := match dims.head? with
    | some d => d.value
    | none => 1
  let size_unit : String := match dims.head? with
    | some d => d.unit
    | none => default_unit
  let steps0 : List PlanStep := []
  let last0 : Option String := none
  let (steps1, last1) :=
    if containsAny normalized ["cube", "立方", "正方体"] then
      (steps0 ++ [⟨"ADD_CUBE",
        [("size", .num size_value), ("units", .str size_unit),
         ("name", .str "AI_Cube")], some (.str "创建基础立方体")⟩],
       some "AI_Cube")
    else (steps0, last0)
  let (steps2, last2) :=
    if containsAny normalized ["sphere", "球"] then
      (steps1 ++ [⟨"ADD_SPHERE",
        [("radius", .num (size_value / 2)), ("units", .str size_unit),
         ("name", .str "AI_Sphere")], some (.str "创建球体")⟩],
       some "AI_Sphere")
    else (steps1, last1)
  let (steps3, last3) :=
    if containsAny normalized ["cylinder", "圆柱"] then
      (steps2 ++ [⟨"ADD_CYLINDER",
        [("radius", .num (size_value / 2)), ("depth", .num size_value),
         ("units", .str size_unit), ("name", .str "AI_Cylinder")],
        some (.str "创建圆柱体")⟩],
       some "AI_Cylinder")
    else (steps2, last2)
  let steps4 :=
    if strContains prompt "阵列" || strContains normalized "radial" ||
        strContains normalized "array" then
      steps3 ++ [⟨"ARRAY_RADIAL",
        [("source", .str (last3.getD "AI_Cube")), ("count", .num 8),
         ("radius", .num size_value), ("units", .str size_unit)],
        some (.str "创建环形阵列")⟩]
    else steps3
  let steps5 :=
    if strContains prompt "倒角" || strContains normalized "bevel" then
      steps4 ++ [⟨"BEVEL",
        [("target", .str (last3.getD "AI_Cube")),
         ("width", .num (size_value * (5 / 100))),
         ("units", .str size_unit), ("segments", .num 3)],
        some (.str "为对象添加倒角")⟩]
    else steps4
  let steps6 :=
    if containsAny prompt ["挖", "孔", "boolean", "布尔"] then
      let withBase :=
        if steps5.any (fun st => st.op = "ADD_CUBE") then steps5
        else ⟨"ADD_CUBE",
          [("size", .num size_value), ("units", .str size_unit),
           ("name", .str "AI_Cube")], some (.str "布尔操作基础体")⟩ :: steps5
      let withCutter :=
        if withBase.any (fun st => st.op = "ADD_CYLINDER") then withBase
        else withBase ++ [⟨"ADD_CYLINDER",
          [("radius", .num (size_value / 4)), ("depth", .num size_value),
           ("units", .str size_unit), ("name", .str "AI_Cylinder")],
          some (.str "布尔操作切割体")⟩]
      withCutter ++ [⟨"BOOLEAN_DIFFERENCE",
        [("target", .str "AI_Cube"), ("cutter", .str "AI_Cylinder")],
        some (.str "执行布尔差集")⟩]
    else steps5
  let steps7 :=
    match match_material prompt with
    | some material =>
      steps6 ++ [⟨"SET_MATERIAL",
        [("target", .str (last3.getD "AI_Cube")),
         ("preset", .str material)], some (.str "应用材质预设")⟩]
    | none => steps6
  ⟨planId, prompt, units, steps7⟩

/-- Whether any of `generate_plan`'s keyword guards fires: exactly the
disjunction of the conditions guarding step emission in the source. -/
def hasAnyKeyword (prompt : String) : Bool :=
  let normalized := strLower prompt
  containsAny normalized ["cube", "立方", "正方体"] ||
  containsAny normalized ["sphere", "球"] ||
  containsAny normalized ["cylinder", "圆柱"] ||
  (strContains prompt "阵列" || strContains normalized "radial" ||
    strContains normalized "array") ||
  (strContains prompt "倒角" || strContains normalized "bevel") ||
  containsAny prompt ["挖", "孔", "boolean", "布尔"] ||
  (match_material prompt).isSome

/-- C7: the compiler is a total function (hence never raises), two calls
with the same prompt and unit agree on everything except the fresh
identifier, and a prompt firing none of the keyword guards compiles to a
plan with zero steps. -/
theorem c7_generate_plan_deterministic (id1 id2 prompt units : String) :
    (generate_plan id1 prompt units).steps =
      (generate_plan id2 prompt units).steps ∧
    (generate_plan id1 prompt units).prompt =
      (generate_plan id2 prompt units).prompt ∧
    (generate_plan id1 prompt units).units =
      (generate_plan id2 prompt units).units ∧
    (hasAnyKeyword prompt = false → (generate_plan id1 prompt units).steps = []) := by
  refine ⟨rfl, rfl, rfl, ?_⟩
  intro h
  simp only [hasAnyKeyword, Bool.or_eq_false_iff] at h
  obtain ⟨⟨⟨⟨⟨⟨hcube, hsphere⟩, hcyl⟩, ⟨⟨harr1, harr2⟩, harr3⟩⟩, hbev1, hbev2⟩,
    hbool⟩, hmat⟩ := h
  rw [Bool.eq_false_iff, Ne, Option.isSome_iff_exists] at hmat
  push_neg at hmat
  have hmat' : match_material prompt = none := by
    cases hm : match_material prompt with
    | none => rfl
    | some m => exact absurd hm (hmat m)
  simp [generate_plan, hcube, hsphere, hcyl, harr1, harr2, harr3,
    hbev1, hbev2, hbool, hmat']

/-- Witness for C7 at a concrete keyword-free prompt. -/
theorem c7_generate_plan_deterministic_witness :
    hasAnyKeyword "hello" = false ∧
    (generate_plan "a" "hello" "M").steps = [] := by
  have h : hasAnyKeyword "hello" = false := by decide
  exact ⟨h, (c7_generate_plan_deterministic "a" "b" "hello" "M").2.2.2 h⟩

/-- C5: compiling the prompt "制作一个50cm的金属立方体并挖孔" with default
unit CM yields exactly a CreateBox step, a CreateCylinder step, a
boolean-subtract step whose target is the box's name and whose cutter is
the cylinder's name, and a SetMaterial step with the "metal_brushed"
preset, in that order (which in particular gives the claimed relative
order). -/
theorem c5_box_hole_scenario :
    (generate_plan "p0" "制作一个50cm的金属立方体并挖孔" "CM").steps =
      [⟨"ADD_CUBE",
        [("size", .num 50), ("units", .str "CM"), ("name", .str "AI_Cube")],
        some (.str "创建基础立方体")⟩,
       ⟨"ADD_CYLINDER",
        [("radius", .num (50 / 4)), ("depth", .num 50),
         ("units", .str "CM"), ("name", .str "AI_Cylinder")],
        some (.str "布尔操作切割体")⟩,
       ⟨"BOOLEAN_DIFFERENCE",
        [("target", .str "AI_Cube"), ("cutter", .str "AI_Cylinder")],
        some (.str "执行布尔差集")⟩,
       ⟨"SET_MATERIAL",
        [("target", .str "AI_Cube"), ("preset", .str "metal_brushed")],
        some (.str "应用材质预设")⟩] := by
  norm_num +decide [generate_plan, extract_dimensions, scanDims, matchDimAt,
    takeDigits, isDigitChar, digitVal, digitsToNat, tryUnits, unitAlts,
    isWsChar, unitAlias, match_material, containsAny, strContains, listInfix,
    strLower, lowerChar, strUpper, upperChar]
  norm_num [show '5'.toNat = 53 from by decide]

/-! ## Scene / world model (the `bpy` collaborator as explicit state) -/

/-- A modifier attached to a scene object.  `objectRef` stores the name
of the referenced object (boolean cutter / array offset empty): the
executor only ever hands names across the `bpy` boundary. -/
structure Modifier where
  name : String
  mtype : String
  operation : Option String := none
  objectRef : Option String := none
  count : Option Int := none
  useRelativeOffset : Option Bool := none
  useObjectOffset : Option Bool := none
  width : Option ℚ := none
  segments : Option Int := none
  limitMethod : Option String := none

/-- Mesh data of an object (`obj.data`): the primitive kind it was
created as, its creation dimensions, and its material slot names. -/
structure MeshData where
  kind : String
  dims : List ℚ
  materials : List String

/-- One Blender object: empties have `data = none`.  Only the transform
components the executor touches are modelled. -/
structure SceneObject where
  name : String
  data : Option MeshData
  modifiers : List Modifier
  rotZ : ℚ := 0
  locX : ℚ := 0

/-- The mutable `bpy` state the executor reads and writes: the scene's
objects, the names of the `bpy.data.materials` data-blocks, and the keys
of the loaded material preset catalog.

The preset catalog itself is modelled from the spec: the repository's
`presets/materials.json` file is not among the sources, only its loader
(`materials.ensure_material_presets_loaded`).  Per the spec the catalog
is a static name-to-attributes mapping (metal/plastic/wood presets);
only the key set is relevant here because the attribute values configure
shader node inputs, which are outside the scene model. -/
structure World where
  scene : List SceneObject
  materials : List String
  presets : List String

/-- Names of all objects (the keys of `bpy.data.objects` restricted to
the scene; Blender keeps them unique). -/
def sceneNames (objs : List SceneObject) : List String :=
  objs.map SceneObject.name

/-- `scene.objects.get(name)`. -/
def sceneGet (objs : List SceneObject) (name : String) : Option SceneObject :=
  objs.find? (fun o => o.name = name)

/-- Replace the (unique) object carrying `name`. -/
def updateObj (f : SceneObject → SceneObject) :
    List SceneObject → String → List SceneObject
  | [], _ => []
  | o :: rest, name =>
    if o.name = name then f o :: rest else o :: updateObj f rest name

/-- `obj.modifiers.get(name)`. -/
def modGet (mods : List Modifier) (name : String) : Option Modifier :=
  mods.find? (fun m => m.name = name)

/-- Candidate names the host tries when a requested data-block name is
taken: the base name followed by ever longer suffixes.  The concrete
suffix text abstracts Blender's ".001", ".002", … scheme; all that
matters is that candidates are pairwise distinct. -/
def candName (base : String) : ℕ → String
  | 0 => base
  | k + 1 => base ++ "." ++ String.mk (List.replicate (k + 1) '0')

/-- Fresh-name search with explicit fuel (`taken.length + 1` candidates
always contain an unused one). -/
def uniquifyAux (base : String) (taken : List String) : ℕ → ℕ → String
  | 0, k => candName base k
  | fuel + 1, k =>
    if (taken.contains (candName base k)) then uniquifyAux base taken fuel (k + 1)
    else candName base k

/-- The name the host actually assigns when asked for `base` while the
names in `taken` are in use (Blender data-block name uniquification). -/
def uniquifyName (base : String) (taken : List String) : String :=
  uniquifyAux base taken (taken.length + 1) 0

/-- `executor._StepContext`. -/
structure StepCtx where
  created_objects : List String
  added_modifiers : List (String × String)

/-- Outcome of one step handler: the mutated world, the names it
appended to `step_ctx.created_objects`, the pairs it appended to
`step_ctx.added_modifiers`, and the raised error if any.  Handlers never
read the incoming context (they only append), so they are modelled as
functions of the world alone; on an error raised part-way the world
still carries every mutation made before the raise, exactly as Python's
in-place mutation does. -/
structure HandlerOut where
  world : World
  created : List String
  mods : List (String × String)
  err : Option String

/-- A `target`/`cutter`/`source` parameter crossing into
`scene.objects.get(...)`: `bpy` collection lookup requires a string key. -/
def sceneKeyArg : Option JVal → Except String String
  | some (.str s) => .ok s
  | _ => .error "TypeError: bpy collection keys must be strings"

/-- `ModelingExecutor._op_add_cube`.  `bpy.ops.mesh.primitive_cube_add`
creates a mesh object under the host default name "Cube" (uniquified);
the subsequent `obj.name = name` rename fails with `TypeError` for a
non-string name, in which case the freshly created object stays in the
scene but is never recorded in the step context. -/
def op_add_cube (params : Params) (w : World) : HandlerOut :=
  match pyFloat ((dictGet params "size").getD (.num 1)) with
  | .error e => ⟨w, [], [], some e⟩
  | .ok rawSize =>
  match unitArg (dictGet params "units") with
  | .error e => ⟨w, [], [], some e⟩
  | .ok unit =>
    let size := convert_length rawSize unit
    let nameV := (dictGet params "name").getD (.str "AI_Cube")
    let defName := uniquifyName "Cube" (sceneNames w.scene)
    let newObj : SceneObject := ⟨defName, some ⟨"CUBE", [size], []⟩, [], 0, 0⟩
    match nameV with
    | .str s =>
      let actual := uniquifyName s (sceneNames w.scene)
      ⟨{ w with scene := w.scene ++ [{ newObj with name := actual }] },
       [actual], [], none⟩
    | _ =>
      ⟨{ w with scene := w.scene ++ [newObj] }, [], [],
       some "TypeError: Object.name expects a string"⟩

/-- `ModelingExecutor._op_add_sphere` (host default name "Sphere"). -/
def op_add_sphere (params : Params) (w : World) : HandlerOut :=
  match pyFloat ((dictGet params "radius").getD (.num (1 / 2))) with
  | .error e => ⟨w, [], [], some e⟩
  | .ok rawRadius =>
  match unitArg (dictGet params "units") with
  | .error e => ⟨w, [], [], some e⟩
  | .ok unit =>
    let radius := convert_length rawRadius unit
    let nameV := (dictGet params "name").getD (.str "AI_Sphere")
    let defName := uniquifyName "Sphere" (sceneNames w.scene)
    let newObj : SceneObject := ⟨defName, some ⟨"SPHERE", [radius], []⟩, [], 0, 0⟩
    match nameV with
    | .str s =>
      let actual := uniquifyName s (sceneNames w.scene)
      ⟨{ w with scene := w.scene ++ [{ newObj with name := actual }] },
       [actual], [], none⟩
    | _ =>
      ⟨{ w with scene := w.scene ++ [newObj] }, [], [],
       some "TypeError: Object.name expects a string"⟩

/-- `ModelingExecutor._op_add_cylinder` (host default name "Cylinder"). -/
def op_add_cylinder (params : Params) (w : World) : HandlerOut :=
  match pyFloat ((dictGet params "radius").getD (.num (1 / 2))) with
  | .error e => ⟨w, [], [], some e⟩
  | .ok rawRadius =>
  match unitArg (dictGet params "units") with
  | .error e => ⟨w, [], [], some e⟩
  | .ok unit =>
  match pyFloat ((dictGet params "depth").getD (.num 1)) with
  | .error e => ⟨w, [], [], some e⟩
  | .ok rawDepth =>
    let radius := convert_length rawRadius unit
    let depth := convert_length rawDepth unit
    let nameV := (dictGet params "name").getD (.str "AI_Cylinder")
    let defName := uniquifyName "Cylinder" (sceneNames w.scene)
    let newObj : SceneObject :=
      ⟨defName, some ⟨"CYLINDER", [radius, depth], []⟩, [], 0, 0⟩
    match nameV with
    | .str s =>
      let actual := uniquifyName s (sceneNames w.scene)
      ⟨{ w with scene := w.scene ++ [{ newObj with name := actual }] },
       [actual], [], none⟩
    | _ =>
      ⟨{ w with scene := w.scene ++ [newObj] }, [], [],
       some "TypeError: Object.name expects a string"⟩

/-- `ModelingExecutor._op_boolean_difference`. -/
def op_boolean_difference (params : Params) (w : World) : HandlerOut :=
  let tRaw := dictGet params "target"
  let cRaw := dictGet params "cutter"
  if pyFalsyOpt tRaw || pyFalsyOpt cRaw then
    ⟨w, [], [], some "BOOLEAN_DIFFERENCE 需要 target 与 cutter 参数"⟩
  else
    match sceneKeyArg tRaw with
    | .error e => ⟨w, [], [], some e⟩
    | .ok tName =>
    match sceneKeyArg cRaw with
    | .error e => ⟨w, [], [], some e⟩
    | .ok cName =>
      match sceneGet w.scene tName, sceneGet w.scene cName with
      | some target, some cutter =>
        let modName :=
          uniquifyName "AI_Boolean" (target.modifiers.map Modifier.name)
        let m : Modifier :=
          { name := modName, mtype := "BOOLEAN",
            operation := some "DIFFERENCE", objectRef := some cutter.name }
        let scene' :=
          updateObj (fun o => { o with modifiers := o.modifiers ++ [m] })
            w.scene target.name
        ⟨{ w with scene := scene' }, [], [(target.name, modName)], none⟩
      | _, _ => ⟨w, [], [], some "布尔运算对象不存在"⟩

/-- The float literal `6.283185307179586` of the source, idealised as
the rational its decimal text denotes. -/
def tauLit : ℚ := 6283185307179586 / 1000000000000000

/-- `ModelingExecutor._op_array_radial`, translated monolithically in
source order: after validating parameters it creates and links the
anchor empty (recording it as created), then attaches the array
modifier to the source object and positions the empty. -/
def op_array_radial (params : Params) (w : World) : HandlerOut :=
  let sRaw := dictGet params "source"
  if pyFalsyOpt sRaw then
    ⟨w, [], [], some "ARRAY_RADIAL 需要 source 参数"⟩
  else
    match sceneKeyArg sRaw with
    | .error e => ⟨w, [], [], some e⟩
    | .ok sName =>
    match sceneGet w.scene sName with
    | none => ⟨w, [], [], some "源对象不存在"⟩
    | some source =>
    match pyInt ((dictGet params "count").getD (.num 6)) with
    | .error e => ⟨w, [], [], some e⟩
    | .ok count =>
    match pyFloat ((dictGet params "radius").getD (.num 1)) with
    | .error e => ⟨w, [], [], some e⟩
    | .ok rawRadius =>
    match unitArg (dictGet params "units") with
    | .error e => ⟨w, [], [], some e⟩
    | .ok unit =>
      let radius := convert_length rawRadius unit
      let emptyName := uniquifyName (sName ++ "_RadialEmpty") (sceneNames w.scene)
      let scene1 := w.scene ++ [⟨emptyName, none, [], 0, 0⟩]
      let modName := uniquifyName "AI_Array" (source.modifiers.map Modifier.name)
      let m : Modifier :=
        { name := modName, mtype := "ARRAY", count := some (max 1 count),
          useRelativeOffset := some false, useObjectOffset := some true,
          objectRef := some emptyName }
      let scene2 :=
        updateObj (fun o => { o with modifiers := o.modifiers ++ [m] })
          scene1 source.name
      let rotVal : ℚ := tauLit / ((max 1 count : ℤ) : ℚ)
      let scene3 :=
        updateObj (fun o => { o with rotZ := rotVal, locX := radius })
          scene2 emptyName
      ⟨{ w with scene := scene3 }, [emptyName], [(source.name, modName)], none⟩

/-- `ModelingExecutor._op_bevel`. -/
def op_bevel (params : Params) (w : World) : HandlerOut :=
  let tRaw := dictGet params "target"
  if pyFalsyOpt tRaw then
    ⟨w, [], [], some "BEVEL 需要 target 参数"⟩
  else
    match sceneKeyArg tRaw with
    | .error e => ⟨w, [], [], some e⟩
    | .ok tName =>
    match sceneGet w.scene tName with
    | none => ⟨w, [], [], some "倒角对象不存在"⟩
    | some target =>
    match pyFloat ((dictGet params "width").getD (.num (1 / 100))) with
    | .error e => ⟨w, [], [], some e⟩
    | .ok rawWidth =>
    match unitArg (dictGet params "units") with
    | .error e => ⟨w, [], [], some e⟩
    | .ok unit =>
    match pyInt ((dictGet params "segments").getD (.num 2)) with
    | .error e => ⟨w, [], [], some e⟩
    | .ok segments =>
      let width := convert_length rawWidth unit
      let modName := uniquifyName "AI_Bevel" (target.modifiers.map Modifier.name)
      let m : Modifier :=
        { name := modName, mtype := "BEVEL", width := some width,
          segments := some (max 1 segments), limitMethod := some "NONE" }
      let scene' :=
        updateObj (fun o => { o with modifiers := o.modifiers ++ [m] })
          w.scene target.name
      ⟨{ w with scene := scene' }, [], [(target.name, modName)], none⟩

/-- `materials.apply_material_preset` fused with
`ModelingExecutor._op_set_material`.  Note the source creates (and
configures) the material data-block *before* checking `obj.data`, so a
target without mesh data leaves the new material block behind while the
step still raises; and nothing records the material assignment in the
step context, so rollback never undoes it. -/
def op_set_material (params : Params) (w : World) : HandlerOut :=
  let tRaw := dictGet params "target"
  let pRaw := dictGet params "preset"
  if pyFalsyOpt tRaw || pyFalsyOpt pRaw then
    ⟨w, [], [], some "SET_MATERIAL 需要 target 与 preset 参数"⟩
  else
    match sceneKeyArg tRaw with
    | .error e => ⟨w, [], [], some e⟩
    | .ok tName =>
    match sceneGet w.scene tName with
    | none => ⟨w, [], [], some "设置材质的对象不存在"⟩
    | some target =>
      match pRaw.getD .null with
      | .str presetName =>
        if w.presets.contains presetName then
          let matName := "AI_" ++ presetName
          let mats' :=
            if w.materials.contains matName then w.materials
            else w.materials ++ [matName]
          let w1 := { w with materials := mats' }
          match target.data with
          | none => ⟨w1, [], [], some "对象无可用几何数据，无法设置材质"⟩
          | some md =>
            let md' :=
              if md.materials.isEmpty then { md with materials := [matName] }
              else { md with materials := matName :: md.materials.tail }
            let scene' :=
              updateObj (fun o => { o with data := some md' })
                w1.scene target.name
            ⟨{ w1 with scene := scene' }, [], [], none⟩
        else ⟨w, [], [], some ("未知材质预设：" ++ presetName)⟩
      | .arr _ => ⟨w, [], [], some "TypeError: unhashable preset key"⟩
      | .obj _ => ⟨w, [], [], some "TypeError: unhashable preset key"⟩
      | other => ⟨w, [], [], some ("未知材质预设：" ++ pyStr other)⟩

/-- `ModelingExecutor._get_handler` composed with the handler call: the
dispatch table of `execute_plan`'s loop body; an unknown operation raises
`AIModelerError`. -/
def stepCore (w : World) (step : PlanStep) : HandlerOut :=
  if step.op = "ADD_CUBE" then op_add_cube step.params w
  else if step.op = "ADD_SPHERE" then op_add_sphere step.params w
  else if step.op = "ADD_CYLINDER" then op_add_cylinder step.params w
  else if step.op = "BOOLEAN_DIFFERENCE" then op_boolean_difference step.params w
  else if step.op = "ARRAY_RADIAL" then op_array_radial step.params w
  else if step.op = "BEVEL" then op_bevel step.params w
  else if step.op = "SET_MATERIAL" then op_set_material step.params w
  else ⟨w, [], [], some ("暂不支持的操作：" ++ step.op)⟩

/-! ## Rollback and the execution loop -/

/-- Remove the first (with unique names: the only) object of that name
(`scene.collection.objects.unlink` followed by
`bpy.data.objects.remove`). -/
def removeFirstObj : List SceneObject → String → List SceneObject
  | [], _ => []
  | o :: rest, name =>
    if o.name = name then rest else o :: removeFirstObj rest name

/-- One iteration of `_rollback`'s first loop body: look the name up; if
absent skip silently, else unlink and remove the object. -/
def rollbackObjStep (objs : List SceneObject) (name : String) :
    List SceneObject :=
  match sceneGet objs name with
  | none => objs
  | some _ => removeFirstObj objs name

/-- Remove the first (with unique names: the only) modifier of that name
(`obj.modifiers.remove`). -/
def removeFirstMod : List Modifier → String → List Modifier
  | [], _ => []
  | m :: rest, name =>
    if m.name = name then rest else m :: removeFirstMod rest name

/-- One iteration of `_rollback`'s second loop body: look the object up,
then the modifier; a missing object or modifier is skipped silently. -/
def rollbackModStep (objs : List SceneObject) (pair : String × String) :
    List SceneObject :=
  match sceneGet objs pair.1 with
  | none => objs
  | some obj =>
    match modGet obj.modifiers pair.2 with
    | none => objs
    | some _ =>
      updateObj (fun o => { o with modifiers := removeFirstMod o.modifiers pair.2 })
        objs pair.1

/-- The order in which `_rollback` visits created-object names: the
source iterates `reversed(step_ctx.created_objects)`. -/
def rollbackObjectOrder (ctx : StepCtx) : List String :=
  ctx.created_objects.reverse

/-- The order in which `_rollback` visits (object, modifier) pairs: the
source iterates `step_ctx.added_modifiers` front to back (no
`reversed`). -/
def rollbackModifierOrder (ctx : StepCtx) : List (String × String) :=
  ctx.added_modifiers

/-- `ModelingExecutor._rollback`: delete recorded objects (in
`rollbackObjectOrder`), then remove recorded modifiers (in
`rollbackModifierOrder`).  It is a total function: no code path raises. -/
def rollback (w : World) (ctx : StepCtx) : World :=
  let s1 := (rollbackObjectOrder ctx).foldl rollbackObjStep w.scene
  let s2 := (rollbackModifierOrder ctx).foldl rollbackModStep s1
  { w with scene := s2 }

/-- The state of `execute_plan`'s loop when it finishes or breaks. -/
structure LoopOut where
  world : World
  ctx : StepCtx
  diff : List (String × Params)
  status : String
  error : Option String

/-- The `for index, step in enumerate(plan.steps, start=1)` loop of
`ModelingExecutor.execute_plan`: run the handler; on success append the
step to the applied log and continue; on a raised error record the
message, classify "partial" vs "fail" by the 1-based index, roll back,
and stop. -/
def execLoop (w : World) (ctx : StepCtx) (diff : List (String × Params))
    (idx : ℕ) : List PlanStep → LoopOut
  | [] => ⟨w, ctx, diff, "success", none⟩
  | step :: rest =>
    let o := stepCore w step
    let ctx' : StepCtx :=
      ⟨ctx.created_objects ++ o.created, ctx.added_modifiers ++ o.mods⟩
    match o.err with
    | some e =>
      ⟨rollback o.world ctx', ctx', diff,
       if idx > 1 then "partial" else "fail",
       some ("步骤 " ++ toString idx ++ " (" ++ step.op ++ ") 失败：" ++ e)⟩
    | none => execLoop o.world ctx' (diff ++ [(step.op, step.params)]) (idx + 1) rest

/-- `ModelingExecutor.execute_plan`: run the loop from a fresh step
context and package the `ExecutionResult` (whose `objects` field copies
the final `step_ctx.created_objects`), together with the final world. -/
def execute_plan (w : World) (plan : ModelingPlan) : World × ExecutionResult :=
  let o := execLoop w ⟨[], []⟩ [] 1 plan.steps
  (o.world, ⟨o.status, o.ctx.created_objects, o.diff, o.error⟩)

/-! ## Execution projections used to state the claims -/

/-- 1-based index of the first step whose handler raises, if any,
starting the count at `idx`. -/
def firstFailAux (w : World) (idx : ℕ) : List PlanStep → Option ℕ
  | [] => none
  | step :: rest =>
    let o := stepCore w step
    match o.err with
    | some _ => some idx
    | none => firstFailAux o.world (idx + 1) rest

/-- 1-based index of the first failing step of a plan, if any. -/
def firstFailIdx (w : World) (steps : List PlanStep) : Option ℕ :=
  firstFailAux w 1 steps

/-- The maximal prefix of steps that complete without raising. -/
def appliedPrefix (w : World) : List PlanStep → List PlanStep
  | [] => []
  | step :: rest =>
    let o := stepCore w step
    match o.err with
    | some _ => []
    | none => step :: appliedPrefix o.world rest

/-- The created-object names accumulated in the step context along the
run: per executed step, the names its handler records, stopping after
the first failing step (whose own recorded names, if any, are kept —
Python appends them before the raise). -/
def createdNamesRun (w : World) : List PlanStep → List String
  | [] => []
  | step :: rest =>
    let o := stepCore w step
    match o.err with
    | some _ => o.created
    | none => o.created ++ createdNamesRun o.world rest

/-- Claim-side description of the names an object-creating step assigns
(used for C2): the three primitive-creation operations assign the
requested (or default) name, uniquified against the current scene; the
radial-array step assigns its anchor's derived name; no other operation
creates an object.  Callers only use this on steps whose handler
succeeds, which forces the relevant parameters to be strings. -/
def assignedNames (w : World) (step : PlanStep) : List String :=
  let reqName : String → String := fun dflt =>
    match (dictGet step.params "name").getD (.str dflt) with
    | .str s => s
    | _ => dflt
  if step.op = "ADD_CUBE" then
    [uniquifyName (reqName "AI_Cube") (sceneNames w.scene)]
  else if step.op = "ADD_SPHERE" then
    [uniquifyName (reqName "AI_Sphere") (sceneNames w.scene)]
  else if step.op = "ADD_CYLINDER" then
    [uniquifyName (reqName "AI_Cylinder") (sceneNames w.scene)]
  else if step.op = "BOOLEAN_DIFFERENCE" then []
  else if step.op = "ARRAY_RADIAL" then
    match dictGet step.params "source" with
    | some (.str s) => [uniquifyName (s ++ "_RadialEmpty") (sceneNames w.scene)]
    | _ => []
  else if step.op = "BEVEL" then []
  else if step.op = "SET_MATERIAL" then []
  else []

/-- The names the object-creating steps of a plan assign, in execution
order (claim-side spelling of C2's success clause; world evolution
follows the handlers). -/
def assignedNamesSpec (w : World) : List PlanStep → List String
  | [] => []
  | step :: rest =>
    let o := stepCore w step
    match o.err with
    | some _ => []
    | none => assignedNames w step ++ assignedNamesSpec o.world rest

/-! ## C1: rollback does not restore the whole scene -/

/-- Failing input for C1: a scene holding one pre-existing mesh object
"Box" with no material, a loaded preset catalog containing the
"metal_brushed" preset (per the spec's material catalog), and no
material data-blocks yet. -/
def worldC1 : World :=
  ⟨[⟨"Box", some ⟨"CUBE", [1], []⟩, [], 0, 0⟩], [], ["metal_brushed"]⟩

/-- Failing plan for C1: step 1 sets the metal material on the
pre-existing "Box", step 2 uses an unknown operation and raises. -/
def planC1 : ModelingPlan :=
  ⟨"p1", "", "M",
   [⟨"SET_MATERIAL", [("target", .str "Box"), ("preset", .str "metal_brushed")],
     none⟩,
    ⟨"EXPLODE", [], none⟩]⟩

/-- C1 (code bug): the per-step error at step 2 is caught and converted
into a structured "partial" result — but after the rollback the scene is
*not* back in its pre-execution state: the material assigned to the
pre-existing "Box" by the successful step 1 persists ("Box" starts with
no materials and ends with ["AI_metal_brushed"]), because
`_op_set_material` records nothing in the step context and `_rollback`
only deletes recorded objects and removes recorded modifiers.  This
contradicts the executor's own docstring ("确保场景恢复到执行前状态")
and spec §1. -/
theorem c1_material_survives_rollback :
    (execute_plan worldC1 planC1).2.status = "partial" ∧
    (execute_plan worldC1 planC1).2.error.isSome = true ∧
    (sceneGet worldC1.scene "Box").map (fun o => o.data.map MeshData.materials) =
      some (some []) ∧
    (sceneGet (execute_plan worldC1 planC1).1.scene "Box").map
      (fun o => o.data.map MeshData.materials) =
      some (some ["AI_metal_brushed"]) ∧
    (execute_plan worldC1 planC1).1.scene ≠ worldC1.scene := by
  refine ⟨?_, ?_, ?_, ?_, ?_⟩ <;>
    norm_num +decide [execute_plan, execLoop, stepCore, op_set_material,
      worldC1, planC1, dictGet, pyFalsyOpt, pyFalsy, sceneKeyArg, sceneGet,
      updateObj, rollback, rollbackObjectOrder, rollbackModifierOrder,
      rollbackObjStep, rollbackModStep, sceneNames, modGet]

/-! ## C3: the `objects` field is not emptied on rollback -/

/-- Counterexample input for C3: empty scene. -/
def worldC3 : World := ⟨[], [], []⟩

/-- Counterexample plan for C3: step 1 creates a cube named "Box1",
step 2 raises on an unknown operation, triggering rollback. -/
def planC3 : ModelingPlan :=
  ⟨"p3", "", "M",
   [⟨"ADD_CUBE", [("name", .str "Box1")], none⟩,
    ⟨"NOPE", [], none⟩]⟩

/-- Counterexample for C3 as stated: this execution fails (status
"partial", not "success") and rollback removes "Box1" from the scene —
yet the result's `objects` field still reads ["Box1"], not the empty
list the claim demands: `_rollback` never clears
`step_ctx.created_objects` and `execute_plan` returns a copy of it. -/
theorem c3_counterexample :
    (execute_plan worldC3 planC3).2.status = "partial" ∧
    (execute_plan worldC3 planC3).1.scene = [] ∧
    (execute_plan worldC3 planC3).2.objects = ["Box1"] ∧
    (execute_plan worldC3 planC3).2.objects ≠ [] := by
  refine ⟨?_, ?_, ?_, ?_⟩ <;>
    norm_num +decide [execute_plan, execLoop, stepCore, op_add_cube,
      worldC3, planC3, dictGet, unitArg, pyFloat, sceneGet, updateObj,
      rollback, rollbackObjectOrder, rollbackModifierOrder, rollbackObjStep,
      rollbackModStep, sceneNames, modGet, removeFirstObj, uniquifyName,
      uniquifyAux, candName, convert_length]

/-! ## Loop invariants -/

/-- The loop only ever appends to `step_ctx.created_objects`: its final
content is the incoming content followed by the per-step recorded names. -/
theorem execLoop_ctx_created (steps : List PlanStep) :
    ∀ (w : World) (ctx : StepCtx) (diff : List (String × Params)) (idx : ℕ),
    (execLoop w ctx diff idx steps).ctx.created_objects =
      ctx.created_objects ++ createdNamesRun w steps := by
  induction steps with
  | nil => intro w ctx diff idx; simp [execLoop, createdNamesRun]
  | cons step rest ih =>
    intro w ctx diff idx
    simp only [execLoop, createdNamesRun]
    cases h : (stepCore w step).err with
    | some e => simp [h]
    | none => simp [h, ih, List.append_assoc]

/-- The loop's final status, characterised by the index of the first
failing step. -/
theorem execLoop_status (steps : List PlanStep) :
    ∀ (w : World) (ctx : StepCtx) (diff : List (String × Params)) (idx : ℕ),
    (execLoop w ctx diff idx steps).status =
      (match firstFailAux w idx steps with
       | none => "success"
       | some j => if j > 1 then "partial" else "fail") := by
  induction steps with
  | nil => intro w ctx diff idx; simp [execLoop, firstFailAux]
  | cons step rest ih =>
    intro w ctx diff idx
    simp only [execLoop, firstFailAux]
    cases h : (stepCore w step).err with
    | some e => simp [h]
    | none => simp [h, ih]

/-- The loop's applied-operations log: the incoming log followed by one
`(operation, parameters)` entry per successfully completed step. -/
theorem execLoop_diff (steps : List PlanStep) :
    ∀ (w : World) (ctx : StepCtx) (diff : List (String × Params)) (idx : ℕ),
    (execLoop w ctx diff idx steps).diff =
      diff ++ (appliedPrefix w steps).map (fun s => (s.op, s.params)) := by
  induction steps with
  | nil => intro w ctx diff idx; simp [execLoop, appliedPrefix]
  | cons step rest ih =>
    intro w ctx diff idx
    simp only [execLoop, appliedPrefix]
    cases h : (stepCore w step).err with
    | some e => simp [h]
    | none => simp [h, ih, List.append_assoc]

/-- When no step fails, every step of the plan is applied. -/
theorem appliedPrefix_of_no_fail (steps : List PlanStep) :
    ∀ (w : World) (idx : ℕ), firstFailAux w idx steps = none →
    appliedPrefix w steps = steps := by
  induction steps with
  | nil => intro w idx _; rfl
  | cons step rest ih =>
    intro w idx h
    simp only [firstFailAux] at h
    simp only [appliedPrefix]
    cases he : (stepCore w step).err with
    | some e => rw [he] at h; simp at h
    | none => rw [he] at h; simp [he, ih _ _ h]

/-- Every leaf of `_op_boolean_difference` records no created object. -/
theorem op_boolean_difference_created (params : Params) (w : World) :
    (op_boolean_difference params w).created = [] := by
  simp only [op_boolean_difference]
  repeat' split
  all_goals rfl

/-- Every leaf of `_op_bevel` records no created object. -/
theorem op_bevel_created (params : Params) (w : World) :
    (op_bevel params w).created = [] := by
  simp only [op_bevel]
  repeat' split
  all_goals rfl

/-- Every leaf of `_op_set_material` records no created object. -/
theorem op_set_material_created (params : Params) (w : World) :
    (op_set_material params w).created = [] := by
  simp only [op_set_material]
  repeat' split
  all_goals rfl

/-- On success, `_op_add_cube` records exactly the (uniquified)
requested or default name. -/
theorem op_add_cube_created (params : Params) (w : World)
    (he : (op_add_cube params w).err = none) :
    (op_add_cube params w).created =
      [uniquifyName
        (match (dictGet params "name").getD (.str "AI_Cube") with
         | .str s => s
         | _ => "AI_Cube") (sceneNames w.scene)] := by
  revert he
  simp only [op_add_cube]
  cases pyFloat ((dictGet params "size").getD (.num 1)) with
  | error e => intro he; simp at he
  | ok q =>
    cases unitArg (dictGet params "units") with
    | error e => intro he; simp at he
    | ok u =>
      cases hn : (dictGet params "name").getD (.str "AI_Cube") <;>
        intro he <;> simp_all

/-- On success, `_op_add_sphere` records exactly the (uniquified)
requested or default name. -/
theorem op_add_sphere_created (params : Params) (w : World)
    (he : (op_add_sphere params w).err = none) :
    (op_add_sphere params w).created =
      [uniquifyName
        (match (dictGet params "name").getD (.str "AI_Sphere") with
         | .str s => s
         | _ => "AI_Sphere") (sceneNames w.scene)] := by
  revert he
  simp only [op_add_sphere]
  cases pyFloat ((dictGet params "radius").getD (.num (1 / 2))) with
  | error e => intro he; simp at he
  | ok q =>
    cases unitArg (dictGet params "units") with
    | error e => intro he; simp at he
    | ok u =>
      cases hn : (dictGet params "name").getD (.str "AI_Sphere") <;>
        intro he <;> simp_all

/-- On success, `_op_add_cylinder` records exactly the (uniquified)
requested or default name. -/
theorem op_add_cylinder_created (params : Params) (w : World)
    (he : (op_add_cylinder params w).err = none) :
    (op_add_cylinder params w).created =
      [uniquifyName
        (match (dictGet params "name").getD (.str "AI_Cylinder") with
         | .str s => s
         | _ => "AI_Cylinder") (sceneNames w.scene)] := by
  revert he
  simp only [op_add_cylinder]
  cases pyFloat ((dictGet params "radius").getD (.num (1 / 2))) with
  | error e => intro he; simp at he
  | ok q =>
    cases unitArg (dictGet params "units") with
    | error e => intro he; simp at he
    | ok u =>
      cases pyFloat ((dictGet params "depth").getD (.num 1)) with
      | error e => intro he; simp at he
      | ok d =>
        cases hn : (dictGet params "name").getD (.str "AI_Cylinder") <;>
          intro he <;> simp_all

/-- On success, `_op_array_radial` records exactly the (uniquified)
anchor name derived from its string `source` parameter. -/
theorem op_array_radial_created (params : Params) (w : World)
    (he : (op_array_radial params w).err = none) :
    (op_array_radial params w).created =
      (match dictGet params "source" with
       | some (.str s) => [uniquifyName (s ++ "_RadialEmpty") (sceneNames w.scene)]
       | _ => []) := by
  revert he
  simp only [op_array_radial]
  by_cases hfal : pyFalsyOpt (dictGet params "source") = true
  · simp [hfal]
  · simp only [hfal, if_false]
    cases hsr : dictGet params "source" with
    | none => rw [hsr] at hfal; simp [pyFalsyOpt] at hfal
    | some v =>
      cases v with
      | str s =>
        simp only [sceneKeyArg]
        cases sceneGet w.scene s with
        | none => intro he; simp at he
        | some src =>
          cases pyInt ((dictGet params "count").getD (.num 6)) with
          | error e => intro he; simp at he
          | ok c =>
            cases pyFloat ((dictGet params "radius").getD (.num 1)) with
            | error e => intro he; simp at he
            | ok r =>
              cases unitArg (dictGet params "units") with
              | error e => intro he; simp at he
              | ok u => intro he; simp
      | null => simp [sceneKeyArg]
      | bool b => simp [sceneKeyArg]
      | num q => simp [sceneKeyArg]
      | arr xs => simp [sceneKeyArg]
      | obj kvs => simp [sceneKeyArg]

/-- On an error-free step, the names a handler records are exactly the
names `assignedNames` says the step assigns. -/
theorem stepCore_created_eq_assigned (w : World) (step : PlanStep)
    (he : (stepCore w step).err = none) :
    (stepCore w step).created = assignedNames w step := by
  simp only [stepCore] at he ⊢
  simp only [assignedNames]
  split_ifs at he ⊢ with h1 h2 h3 h4 h5 h6 h7
  · exact op_add_cube_created _ _ he
  · exact op_add_sphere_created _ _ he
  · exact op_add_cylinder_created _ _ he
  · exact op_boolean_difference_created _ _
  · exact op_array_radial_created _ _ he
  · exact op_bevel_created _ _
  · exact op_set_material_created _ _

/-- On an error-free prefix, the step-context projection coincides with
the claim-side assigned-names description. -/
theorem createdNamesRun_eq_assignedSpec (steps : List PlanStep) :
    ∀ (w : World) (idx : ℕ), firstFailAux w idx steps = none →
    createdNamesRun w steps = assignedNamesSpec w steps := by
  induction steps with
  | nil => intro w idx _; rfl
  | cons step rest ih =>
    intro w idx h
    simp only [firstFailAux] at h
    simp only [createdNamesRun, assignedNamesSpec]
    cases he : (stepCore w step).err with
    | some e => rw [he] at h; simp at h
    | none =>
      rw [he] at h
      rw [stepCore_created_eq_assigned w step he]
      simp [he, ih _ _ h]

/-- C3 (amended): the result's `objects` field is *not* cleared by
rollback — on success and failure alike it lists exactly the names the
executed steps recorded into `step_ctx.created_objects` (for a failure
at step k: the names recorded by steps 1..k-1, in creation order), even
though rollback has removed those objects from the scene. -/
theorem c3_objects_lists_created_names (w : World) (plan : ModelingPlan) :
    (execute_plan w plan).2.objects = createdNamesRun w plan.steps := by
  simp [execute_plan, execLoop_ctx_created]

/-- C2: status classification of `execute_plan` — first failure at step
1 gives "fail", first failure at a later step gives "partial", and an
execution with no failing step gives "success" with `objects` listing
exactly the name assigned by every object-creating step, in execution
order (`assignedNamesSpec`). -/
theorem c2_status_and_objects (w : World) (plan : ModelingPlan) :
    (firstFailIdx w plan.steps = some 1 →
      (execute_plan w plan).2.status = "fail") ∧
    (∀ k, firstFailIdx w plan.steps = some k → 1 < k →
      (execute_plan w plan).2.status = "partial") ∧
    (firstFailIdx w plan.steps = none →
      (execute_plan w plan).2.status = "success" ∧
      (execute_plan w plan).2.objects = assignedNamesSpec w plan.steps) := by
  have hs := execLoop_status plan.steps w ⟨[], []⟩ [] 1
  have hobj := execLoop_ctx_created plan.steps w ⟨[], []⟩ [] 1
  refine ⟨?_, ?_, ?_⟩
  · intro h
    rw [firstFailIdx] at h
    simp only [execute_plan, hs, h]
    norm_num
  · intro k h hk
    rw [firstFailIdx] at h
    simp only [execute_plan, hs, h]
    simp [hk]
  · intro h
    rw [firstFailIdx] at h
    constructor
    · simp only [execute_plan, hs, h]
    · simp only [execute_plan, hobj]
      simpa using createdNamesRun_eq_assignedSpec plan.steps w 1 h

/-- Witness for C2 at concrete inputs: a one-step plan that succeeds
(status "success", objects = the assigned name), a plan failing at step
1 (status "fail"), and a plan failing at step 2 (status "partial"). -/
theorem c2_status_and_objects_witness :
    ((execute_plan ⟨[], [], []⟩
        ⟨"pa", "", "M", [⟨"ADD_CUBE", [("name", .str "A")], none⟩]⟩).2.status =
      "success" ∧
     (execute_plan ⟨[], [], []⟩
        ⟨"pa", "", "M", [⟨"ADD_CUBE", [("name", .str "A")], none⟩]⟩).2.objects =
      assignedNamesSpec ⟨[], [], []⟩ [⟨"ADD_CUBE", [("name", .str "A")], none⟩]) ∧
    (execute_plan ⟨[], [], []⟩
        ⟨"pb", "", "M", [⟨"NOPE", [], none⟩]⟩).2.status = "fail" ∧
    (execute_plan ⟨[], [], []⟩
        ⟨"pc", "", "M", [⟨"ADD_CUBE", [("name", .str "A")], none⟩,
                         ⟨"NOPE", [], none⟩]⟩).2.status = "partial" := by
  have h1 : firstFailIdx (⟨[], [], []⟩ : World)
      [⟨"ADD_CUBE", [("name", .str "A")], none⟩] = none := by
    norm_num +decide [firstFailIdx, firstFailAux, stepCore, op_add_cube,
      dictGet, unitArg, pyFloat]
  have h2 : firstFailIdx (⟨[], [], []⟩ : World)
      [(⟨"NOPE", [], none⟩ : PlanStep)] = some 1 := by
    norm_num +decide [firstFailIdx, firstFailAux, stepCore, dictGet]
  have h3 : firstFailIdx (⟨[], [], []⟩ : World)
      [⟨"ADD_CUBE", [("name", .str "A")], none⟩, ⟨"NOPE", [], none⟩] = some 2 := by
    norm_num +decide [firstFailIdx, firstFailAux, stepCore, op_add_cube,
      dictGet, unitArg, pyFloat]
  refine ⟨⟨?_, ?_⟩, ?_, ?_⟩
  · exact ((c2_status_and_objects ⟨[], [], []⟩
      ⟨"pa", "", "M", [⟨"ADD_CUBE", [("name", .str "A")], none⟩]⟩).2.2 h1).1
  · exact ((c2_status_and_objects ⟨[], [], []⟩
      ⟨"pa", "", "M", [⟨"ADD_CUBE", [("name", .str "A")], none⟩]⟩).2.2 h1).2
  · exact (c2_status_and_objects ⟨[], [], []⟩
      ⟨"pb", "", "M", [⟨"NOPE", [], none⟩]⟩).1 h2
  · exact (c2_status_and_objects ⟨[], [], []⟩
      ⟨"pc", "", "M", [⟨"ADD_CUBE", [("name", .str "A")], none⟩,
                       ⟨"NOPE", [], none⟩]⟩).2.1 2 h3 (by norm_num)

/-- C9: the returned applied-operations log (`diff`) holds exactly one
(operation, parameters) entry per successfully completed step, in
execution order — nothing for the failing step or beyond, and the
entries of rolled-back steps are retained; when no step fails the
applied prefix is the whole plan, giving one entry per step. -/
theorem c9_applied_log (w : World) (plan : ModelingPlan) :
    (execute_plan w plan).2.diff =
      (appliedPrefix w plan.steps).map (fun s => (s.op, s.params)) ∧
    (firstFailIdx w plan.steps = none →
      appliedPrefix w plan.steps = plan.steps) := by
  constructor
  · simp [execute_plan, execLoop_diff]
  · exact appliedPrefix_of_no_fail plan.steps w 1

/-- Witness for C9: a concrete two-step plan failing at step 2 keeps
exactly the first step's log entry, and a concrete succeeding plan logs
every step. -/
theorem c9_applied_log_witness :
    (execute_plan ⟨[], [], []⟩
        ⟨"pd", "", "M", [⟨"ADD_CUBE", [("name", .str "A")], none⟩,
                         ⟨"NOPE", [], none⟩]⟩).2.diff =
      [("ADD_CUBE", [("name", .str "A")])] ∧
    appliedPrefix ⟨[], [], []⟩ [⟨"ADD_CUBE", [("name", .str "A")], none⟩] =
      [⟨"ADD_CUBE", [("name", .str "A")], none⟩] := by
  constructor
  · rw [(c9_applied_log ⟨[], [], []⟩
      ⟨"pd", "", "M", [⟨"ADD_CUBE", [("name", .str "A")], none⟩,
                       ⟨"NOPE", [], none⟩]⟩).1]
    norm_num +decide [appliedPrefix, stepCore, op_add_cube, dictGet,
      unitArg, pyFloat]
  · exact (c9_applied_log ⟨[], [], []⟩
      ⟨"pe", "", "M", [⟨"ADD_CUBE", [("name", .str "A")], none⟩]⟩).2
      (by norm_num +decide [firstFailIdx, firstFailAux, stepCore, op_add_cube,
        dictGet, unitArg, pyFloat])

/-! ## C4: rollback processing order, skip-silently, idempotence -/

/-- Well-formedness the host guarantees: object names are unique in the
scene and modifier names are unique per object. -/
def SceneWF (objs : List SceneObject) : Prop :=
  (objs.map SceneObject.name).Nodup ∧
  ∀ o ∈ objs, (o.modifiers.map Modifier.name).Nodup

/-- `sceneGet` misses exactly when no object carries the name. -/
theorem sceneGet_eq_none_iff (objs : List SceneObject) (n : String) :
    sceneGet objs n = none ↔ n ∉ objs.map SceneObject.name := by
  induction objs with
  | nil => simp [sceneGet]
  | cons o rest ih =>
    by_cases h : o.name = n
    · simp [sceneGet, List.find?, h]
    · simp only [sceneGet, List.find?] at ih ⊢
      simp [h, ih, Ne.symm h]

/-- An object returned by `sceneGet` is in the scene and has the name. -/
theorem sceneGet_eq_some (objs : List SceneObject) (n : String)
    (o : SceneObject) (h : sceneGet objs n = some o) :
    o ∈ objs ∧ o.name = n := by
  have hm := List.mem_of_find?_eq_some h
  have hp := List.find?_some h
  exact ⟨hm, by simpa using hp⟩

/-- `modGet` misses exactly when no modifier carries the name. -/
theorem modGet_eq_none_iff (mods : List Modifier) (n : String) :
    modGet mods n = none ↔ n ∉ mods.map Modifier.name := by
  induction mods with
  | nil => simp [modGet]
  | cons m rest ih =>
    by_cases h : m.name = n
    · simp [modGet, List.find?, h]
    · simp only [modGet, List.find?] at ih ⊢
      simp [h, ih, Ne.symm h]

/-- Removing an object by name erases exactly that name from the name
list. -/
theorem removeFirstObj_map_name (objs : List SceneObject) (n : String) :
    (removeFirstObj objs n).map SceneObject.name =
      (objs.map SceneObject.name).erase n := by
  induction objs with
  | nil => rfl
  | cons o rest ih =>
    by_cases h : o.name = n
    · simp [removeFirstObj, h, List.erase_cons_head]
    · simp [removeFirstObj, h, List.erase_cons_tail, ih]

/-- Object removal keeps a sublist of the scene. -/
theorem removeFirstObj_sublist (objs : List SceneObject) (n : String) :
    (removeFirstObj objs n).Sublist objs := by
  induction objs with
  | nil => simp [removeFirstObj]
  | cons o rest ih =>
    by_cases h : o.name = n
    · simp [removeFirstObj, h]
    · simp only [removeFirstObj, h, if_false]
      exact ih.cons₂ o

/-- Removing a modifier by name erases exactly that name. -/
theorem removeFirstMod_map_name (mods : List Modifier) (n : String) :
    (removeFirstMod mods n).map Modifier.name =
      (mods.map Modifier.name).erase n := by
  induction mods with
  | nil => rfl
  | cons m rest ih =>
    by_cases h : m.name = n
    · simp [removeFirstMod, h, List.erase_cons_head]
    · simp [removeFirstMod, h, List.erase_cons_tail, ih]

/-- `updateObj` with a name-preserving update keeps the name list. -/
theorem updateObj_map_name (f : SceneObject → SceneObject)
    (hf : ∀ o, (f o).name = o.name) (objs : List SceneObject) (n : String) :
    (updateObj f objs n).map SceneObject.name = objs.map SceneObject.name := by
  induction objs with
  | nil => rfl
  | cons o rest ih =>
    by_cases h : o.name = n
    · simp [updateObj, h, hf]
    · simp [updateObj, h, ih]

/-- Looking up the updated name returns the updated object. -/
theorem sceneGet_updateObj_self (f : SceneObject → SceneObject)
    (hf : ∀ o, (f o).name = o.name) (objs : List SceneObject) (n : String) :
    sceneGet (updateObj f objs n) n = (sceneGet objs n).map f := by
  induction objs with
  | nil => rfl
  | cons o rest ih =>
    by_cases h : o.name = n
    · simp [updateObj, h, sceneGet, List.find?, hf]
    · simp only [updateObj, h, if_false, sceneGet, List.find?] at ih ⊢
      simp [h, ih]

/-- Looking up any other name is unaffected by `updateObj`. -/
theorem sceneGet_updateObj_ne (f : SceneObject → SceneObject)
    (hf : ∀ o, (f o).name = o.name) (objs : List SceneObject) (n n' : String)
    (hne : n' ≠ n) :
    sceneGet (updateObj f objs n) n' = sceneGet objs n' := by
  induction objs with
  | nil => rfl
  | cons o rest ih =>
    have hnn : ¬n = n' := fun hx => hne hx.symm
    by_cases h : o.name = n
    · simp [updateObj, h, sceneGet, List.find?, hf, hnn]
    · by_cases h' : o.name = n'
      · simp [updateObj, h, sceneGet, List.find?, h', hne, hnn]
      · simp [updateObj, h, sceneGet, List.find?, h', hne, hnn]
        exact ih

/-- Whether the scene holds object `p.1` carrying a modifier `p.2`. -/
def hasMod (objs : List SceneObject) (p : String × String) : Bool :=
  match sceneGet objs p.1 with
  | none => false
  | some o => (modGet o.modifiers p.2).isSome

/-- One object-rollback iteration erases exactly that name. -/
theorem rollbackObjStep_map_name (objs : List SceneObject) (n : String) :
    (rollbackObjStep objs n).map SceneObject.name =
      (objs.map SceneObject.name).erase n := by
  unfold rollbackObjStep
  cases h : sceneGet objs n with
  | none =>
    rw [List.erase_of_not_mem ((sceneGet_eq_none_iff objs n).mp h)]
  | some o => exact removeFirstObj_map_name objs n

/-- Skip-silently for objects: a missing name leaves the scene alone. -/
theorem rollbackObjStep_of_absent (objs : List SceneObject) (n : String)
    (h : sceneGet objs n = none) : rollbackObjStep objs n = objs := by
  simp [rollbackObjStep, h]

/-- One object-rollback iteration preserves well-formedness. -/
theorem rollbackObjStep_wf (objs : List SceneObject) (n : String)
    (h : SceneWF objs) : SceneWF (rollbackObjStep objs n) := by
  constructor
  · rw [rollbackObjStep_map_name]
    exact h.1.erase n
  · intro o ho
    apply h.2
    unfold rollbackObjStep at ho
    cases hg : sceneGet objs n with
    | none => rw [hg] at ho; exact ho
    | some x =>
      rw [hg] at ho
      exact (removeFirstObj_sublist objs n).subset ho

/-- Removing one object cannot bring an absent name back. -/
theorem rollbackObjStep_mono (objs : List SceneObject) (n x : String)
    (h : x ∉ objs.map SceneObject.name) :
    x ∉ (rollbackObjStep objs n).map SceneObject.name := by
  rw [rollbackObjStep_map_name]
  exact fun hx => h (List.mem_of_mem_erase hx)

/-- The modifier-removing object update of `_rollback`'s second loop. -/
def stripMod (modName : String) (o : SceneObject) : SceneObject :=
  { o with modifiers := removeFirstMod o.modifiers modName }

/-- `rollbackModStep`, spelled through `stripMod`. -/
theorem rollbackModStep_eq (objs : List SceneObject) (p : String × String) :
    rollbackModStep objs p =
      (match sceneGet objs p.1 with
       | none => objs
       | some o =>
         match modGet o.modifiers p.2 with
         | none => objs
         | some _ => updateObj (stripMod p.2) objs p.1) := by
  unfold rollbackModStep stripMod
  rfl

/-- One modifier-rollback iteration preserves the scene's name list. -/
theorem rollbackModStep_map_name (objs : List SceneObject)
    (p : String × String) :
    (rollbackModStep objs p).map SceneObject.name =
      objs.map SceneObject.name := by
  rw [rollbackModStep_eq]
  cases hg : sceneGet objs p.1 with
  | none => rfl
  | some o =>
    cases hm : modGet o.modifiers p.2 with
    | none => simp [hm]
    | some m =>
      simp only [hm]
      exact updateObj_map_name (stripMod p.2) (fun _ => rfl) objs p.1

/-- Skip-silently for modifiers: a missing object leaves the scene alone. -/
theorem rollbackModStep_of_no_obj (objs : List SceneObject)
    (p : String × String) (h : sceneGet objs p.1 = none) :
    rollbackModStep objs p = objs := by
  simp [rollbackModStep, h]

/-- Skip-silently for modifiers: a present object without the modifier
leaves the scene alone. -/
theorem rollbackModStep_of_no_mod (objs : List SceneObject)
    (p : String × String) (o : SceneObject) (h : sceneGet objs p.1 = some o)
    (hm : modGet o.modifiers p.2 = none) :
    rollbackModStep objs p = objs := by
  simp [rollbackModStep, h, hm]

/-- Skip-silently, combined: an entry with nothing to undo is a no-op. -/
theorem rollbackModStep_of_absent (objs : List SceneObject)
    (p : String × String) (h : hasMod objs p = false) :
    rollbackModStep objs p = objs := by
  cases hg : sceneGet objs p.1 with
  | none => exact rollbackModStep_of_no_obj objs p hg
  | some o =>
    cases hm : modGet o.modifiers p.2 with
    | none => exact rollbackModStep_of_no_mod objs p o hg hm
    | some m =>
      unfold hasMod at h
      rw [hg] at h
      simp [hm] at h

/-- Objects of the updated scene: untouched or updated members. -/
theorem updateObj_mem (f : SceneObject → SceneObject)
    (objs : List SceneObject) (n : String) (o' : SceneObject) :
    o' ∈ updateObj f objs n →
    o' ∈ objs ∨ ∃ o ∈ objs, o.name = n ∧ o' = f o := by
  induction objs with
  | nil => intro h; simp [updateObj] at h
  | cons o rest ih =>
    intro h
    by_cases he : o.name = n
    · simp only [updateObj, he, if_true, List.mem_cons] at h
      rcases h with h | h
      · exact Or.inr ⟨o, List.mem_cons_self o rest, he, h⟩
      · exact Or.inl (List.mem_cons_of_mem o h)
    · simp only [updateObj, he, if_false, List.mem_cons] at h
      rcases h with h | h
      · exact Or.inl (h ▸ List.mem_cons_self o rest)
      · rcases ih h with h' | ⟨x, hx, hxn, he'⟩
        · exact Or.inl (List.mem_cons_of_mem o h')
        · exact Or.inr ⟨x, List.mem_cons_of_mem o hx, hxn, he'⟩

/-- One modifier-rollback iteration preserves well-formedness. -/
theorem rollbackModStep_wf (objs : List SceneObject) (p : String × String)
    (h : SceneWF objs) : SceneWF (rollbackModStep objs p) := by
  constructor
  · rw [rollbackModStep_map_name]; exact h.1
  · intro o' ho'
    rw [rollbackModStep_eq] at ho'
    cases hg : sceneGet objs p.1 with
    | none => rw [hg] at ho'; exact h.2 o' ho'
    | some o =>
      rw [hg] at ho'
      simp only at ho'
      cases hm : modGet o.modifiers p.2 with
      | none => rw [hm] at ho'; exact h.2 o' ho'
      | some m =>
        rw [hm] at ho'
        simp only at ho'
        rcases updateObj_mem _ _ _ _ ho' with hin | ⟨x, hx, hxn, he⟩
        · exact h.2 o' hin
        · subst he
          simp only [stripMod, removeFirstMod_map_name]
          exact (h.2 x hx).erase _

/-- After processing an entry, that object no longer carries that
modifier. -/
theorem rollbackModStep_self (objs : List SceneObject) (p : String × String)
    (h : SceneWF objs) : hasMod (rollbackModStep objs p) p = false := by
  rw [rollbackModStep_eq]
  cases hg : sceneGet objs p.1 with
  | none => simp [hasMod, hg]
  | some o =>
    cases hm : modGet o.modifiers p.2 with
    | none => simp [hasMod, hg, hm]
    | some m =>
      simp only [hm]
      unfold hasMod
      rw [sceneGet_updateObj_self (stripMod p.2) (fun _ => rfl) objs p.1, hg]
      have hin : o ∈ objs := (sceneGet_eq_some objs p.1 o hg).1
      have hnone : modGet (stripMod p.2 o).modifiers p.2 = none := by
        simp only [stripMod]
        rw [modGet_eq_none_iff, removeFirstMod_map_name]
        exact (h.2 o hin).not_mem_erase
      simp [hnone]

/-- Processing one entry cannot bring back an absent modifier. -/
theorem rollbackModStep_mono (objs : List SceneObject)
    (p q : String × String) (h : hasMod objs q = false) :
    hasMod (rollbackModStep objs p) q = false := by
  rw [rollbackModStep_eq]
  cases hg : sceneGet objs p.1 with
  | none => exact h
  | some o =>
    cases hm : modGet o.modifiers p.2 with
    | none => simp only [hm]; exact h
    | some m =>
      simp only [hm]
      unfold hasMod at h ⊢
      by_cases hq : q.1 = p.1
      · rw [hq, sceneGet_updateObj_self (stripMod p.2) (fun _ => rfl) objs p.1,
          hg]
        simp only [hq, hg] at h
        have hqnone : modGet (stripMod p.2 o).modifiers q.2 = none := by
          simp only [stripMod]
          rw [modGet_eq_none_iff, removeFirstMod_map_name]
          intro hc
          have hmem := List.mem_of_mem_erase hc
          cases hmg : modGet o.modifiers q.2 with
          | none => rw [modGet_eq_none_iff] at hmg; exact hmg hmem
          | some _ => rw [hmg] at h; simp at h
        simp [hqnone]
      · rw [sceneGet_updateObj_ne (stripMod p.2) (fun _ => rfl) objs p.1 q.1 hq]
        exact h

/-- The object-deletion pass, at the level of name lists: it folds
`List.erase` over the visited names. -/
theorem foldObj_map_name (ns : List String) :
    ∀ objs : List SceneObject,
    ((ns.foldl rollbackObjStep objs).map SceneObject.name) =
      ns.foldl List.erase (objs.map SceneObject.name) := by
  induction ns with
  | nil => intro objs; rfl
  | cons n rest ih =>
    intro objs
    simp only [List.foldl_cons, ih, rollbackObjStep_map_name]

/-- Erasing cannot re-introduce an element. -/
theorem foldErase_mono (ns : List String) :
    ∀ (l : List String) (x : String), x ∉ l → x ∉ ns.foldl List.erase l := by
  induction ns with
  | nil => intro l x h; exact h
  | cons n rest ih =>
    intro l x h
    exact ih _ x (fun hx => h (List.mem_of_mem_erase hx))

/-- After erasing every name of `ns` from a duplicate-free list, none of
them is left. -/
theorem foldErase_not_mem (ns : List String) :
    ∀ l : List String, l.Nodup → ∀ n ∈ ns, n ∉ ns.foldl List.erase l := by
  induction ns with
  | nil => intro l _ n hn; simp at hn
  | cons n0 rest ih =>
    intro l hl n hn
    rcases List.mem_cons.mp hn with rfl | hn'
    · exact foldErase_mono rest _ n (hl.not_mem_erase)
    · exact ih (l.erase n0) (hl.erase n0) n hn'

/-- The object-deletion pass preserves well-formedness. -/
theorem foldObj_wf (ns : List String) :
    ∀ objs : List SceneObject, SceneWF objs →
    SceneWF (ns.foldl rollbackObjStep objs) := by
  induction ns with
  | nil => intro objs h; exact h
  | cons n rest ih =>
    intro objs h
    exact ih _ (rollbackObjStep_wf objs n h)

/-- The object-deletion pass is a no-op when every visited name is
already absent. -/
theorem foldObj_id (ns : List String) :
    ∀ objs : List SceneObject, (∀ n ∈ ns, sceneGet objs n = none) →
    ns.foldl rollbackObjStep objs = objs := by
  induction ns with
  | nil => intro objs _; rfl
  | cons n rest ih =>
    intro objs h
    have h0 := rollbackObjStep_of_absent objs n (h n (List.mem_cons_self n rest))
    simp only [List.foldl_cons, h0]
    exact ih objs (fun x hx => h x (List.mem_cons_of_mem n hx))

/-- The modifier-removal pass preserves the scene's name list. -/
theorem foldMod_map_name (ps : List (String × String)) :
    ∀ objs : List SceneObject,
    ((ps.foldl rollbackModStep objs).map SceneObject.name) =
      objs.map SceneObject.name := by
  induction ps with
  | nil => intro objs; rfl
  | cons p rest ih =>
    intro objs
    simp only [List.foldl_cons, ih, rollbackModStep_map_name]

/-- The modifier-removal pass preserves well-formedness. -/
theorem foldMod_wf (ps : List (String × String)) :
    ∀ objs : List SceneObject, SceneWF objs →
    SceneWF (ps.foldl rollbackModStep objs) := by
  induction ps with
  | nil => intro objs h; exact h
  | cons p rest ih =>
    intro objs h
    exact ih _ (rollbackModStep_wf objs p h)

/-- Absent modifiers stay absent through the modifier-removal pass. -/
theorem foldMod_mono (ps : List (String × String)) :
    ∀ (objs : List SceneObject) (q : String × String),
    hasMod objs q = false → hasMod (ps.foldl rollbackModStep objs) q = false := by
  induction ps with
  | nil => intro objs q h; exact h
  | cons p rest ih =>
    intro objs q h
    exact ih _ q (rollbackModStep_mono objs p q h)

/-- After the modifier-removal pass over a well-formed scene, none of
the visited (object, modifier) entries is still attached. -/
theorem foldMod_self (ps : List (String × String)) :
    ∀ objs : List SceneObject, SceneWF objs →
    ∀ p ∈ ps, hasMod (ps.foldl rollbackModStep objs) p = false := by
  induction ps with
  | nil => intro objs _ p hp; simp at hp
  | cons p0 rest ih =>
    intro objs h p hp
    rcases List.mem_cons.mp hp with rfl | hp'
    · exact foldMod_mono rest _ p (rollbackModStep_self objs p h)
    · exact ih _ (rollbackModStep_wf objs p0 h) p hp'

/-- The modifier-removal pass is a no-op when every visited entry is
already gone. -/
theorem foldMod_id (ps : List (String × String)) :
    ∀ objs : List SceneObject, (∀ p ∈ ps, hasMod objs p = false) →
    ps.foldl rollbackModStep objs = objs := by
  induction ps with
  | nil => intro objs _; rfl
  | cons p rest ih =>
    intro objs h
    have h0 := rollbackModStep_of_absent objs p (h p (List.mem_cons_self p rest))
    simp only [List.foldl_cons, h0]
    exact ih objs (fun x hx => h x (List.mem_cons_of_mem p hx))

/-- Rollback of a well-formed scene is idempotent: running `_rollback`
again over the state it produced changes nothing. -/
theorem rollback_idempotent (w : World) (ctx : StepCtx)
    (hwf : SceneWF w.scene) : rollback (rollback w ctx) ctx = rollback w ctx := by
  unfold rollback
  have hnames1 := foldObj_map_name (rollbackObjectOrder ctx) w.scene
  have hnames2 := foldMod_map_name (rollbackModifierOrder ctx)
    ((rollbackObjectOrder ctx).foldl rollbackObjStep w.scene)
  have habsent : ∀ n ∈ rollbackObjectOrder ctx,
      sceneGet ((rollbackModifierOrder ctx).foldl rollbackModStep
        ((rollbackObjectOrder ctx).foldl rollbackObjStep w.scene)) n = none := by
    intro n hn
    rw [sceneGet_eq_none_iff, hnames2, hnames1]
    exact foldErase_not_mem (rollbackObjectOrder ctx) _ hwf.1 n hn
  have hwf1 : SceneWF ((rollbackObjectOrder ctx).foldl rollbackObjStep w.scene) :=
    foldObj_wf (rollbackObjectOrder ctx) w.scene hwf
  have hmods : ∀ p ∈ rollbackModifierOrder ctx,
      hasMod ((rollbackModifierOrder ctx).foldl rollbackModStep
        ((rollbackObjectOrder ctx).foldl rollbackObjStep w.scene)) p = false :=
    foldMod_self (rollbackModifierOrder ctx) _ hwf1
  simp only [foldObj_id (rollbackObjectOrder ctx) _ habsent,
    foldMod_id (rollbackModifierOrder ctx) _ hmods]

/-- Counterexample for C4 as stated: with two recorded modifier entries,
`_rollback`'s second loop visits them in the order of addition —
`for obj_name, modifier_name in step_ctx.added_modifiers:` has no
`reversed(...)` — which is *not* the reverse chronological order the
claim asserts (the created-object loop, by contrast, is reversed). -/
theorem c4_counterexample :
    rollbackModifierOrder ⟨[], [("a", "m1"), ("a", "m2")]⟩ =
      [("a", "m1"), ("a", "m2")] ∧
    rollbackModifierOrder ⟨[], [("a", "m1"), ("a", "m2")]⟩ ≠
      (⟨[], [("a", "m1"), ("a", "m2")]⟩ : StepCtx).added_modifiers.reverse ∧
    rollbackObjectOrder ⟨["o1", "o2"], []⟩ =
      (⟨["o1", "o2"], []⟩ : StepCtx).created_objects.reverse := by
  refine ⟨rfl, ?_, rfl⟩
  decide

/-- C4 (amended): rollback visits created-object names in reverse
chronological order but (object, modifier) pairs in their order of
addition; for both, an entry whose object or modifier is no longer
present is skipped silently, rollback is a total function (never
raises), and on a well-formed scene (unique object names, unique
modifier names per object — which Blender guarantees) it is idempotent
against partially-applied state: re-running it changes nothing. -/
theorem c4_rollback_order_and_idempotence :
    (∀ ctx : StepCtx, rollbackObjectOrder ctx = ctx.created_objects.reverse) ∧
    (∀ ctx : StepCtx, rollbackModifierOrder ctx = ctx.added_modifiers) ∧
    (∀ (objs : List SceneObject) (n : String),
      sceneGet objs n = none → rollbackObjStep objs n = objs) ∧
    (∀ (objs : List SceneObject) (p : String × String),
      sceneGet objs p.1 = none → rollbackModStep objs p = objs) ∧
    (∀ (objs : List SceneObject) (p : String × String) (o : SceneObject),
      sceneGet objs p.1 = some o → modGet o.modifiers p.2 = none →
      rollbackModStep objs p = objs) ∧
    (∀ (w : World) (ctx : StepCtx), SceneWF w.scene →
      rollback (rollback w ctx) ctx = rollback w ctx) :=
  ⟨fun _ => rfl, fun _ => rfl, rollbackObjStep_of_absent,
   rollbackModStep_of_no_obj, rollbackModStep_of_no_mod,
   rollback_idempotent⟩

/-- Witness for C4 at concrete inputs: rolling back a context whose
entries point at a one-object scene lacking them is a no-op at each
step, and rollback over that scene is idempotent. -/
theorem c4_rollback_order_and_idempotence_witness :
    rollbackObjStep [⟨"keep", none, [], 0, 0⟩] "gone" =
      [⟨"keep", none, [], 0, 0⟩] ∧
    rollbackModStep [⟨"keep", none, [], 0, 0⟩] ("gone", "m") =
      [⟨"keep", none, [], 0, 0⟩] ∧
    rollbackModStep [⟨"keep", none, [], 0, 0⟩] ("keep", "m") =
      [⟨"keep", none, [], 0, 0⟩] ∧
    rollback (rollback ⟨[⟨"keep", none, [], 0, 0⟩], [], []⟩ ⟨["gone"], [("keep", "m")]⟩)
        ⟨["gone"], [("keep", "m")]⟩ =
      rollback ⟨[⟨"keep", none, [], 0, 0⟩], [], []⟩ ⟨["gone"], [("keep", "m")]⟩ := by
  have h1 : sceneGet [(⟨"keep", none, [], 0, 0⟩ : SceneObject)] "gone" = none := by
    simp +decide [sceneGet, List.find?]
  have h2 : sceneGet [(⟨"keep", none, [], 0, 0⟩ : SceneObject)] "keep" =
      some ⟨"keep", none, [], 0, 0⟩ := by
    simp +decide [sceneGet, List.find?]
  have h3 : modGet ([] : List Modifier) "m" = none := rfl
  have hwf : SceneWF [(⟨"keep", none, [], 0, 0⟩ : SceneObject)] := by
    constructor
    · simp
    · intro o ho
      simp at ho
      subst ho
      simp
  refine ⟨?_, ?_, ?_, ?_⟩
  · exact c4_rollback_order_and_idempotence.2.2.1 _ "gone" h1
  · exact c4_rollback_order_and_idempotence.2.2.2.1 _ ("gone", "m") h1
  · exact c4_rollback_order_and_idempotence.2.2.2.2.1 _ ("keep", "m") _ h2 h3
  · exact c4_rollback_order_and_idempotence.2.2.2.2.2
      ⟨[⟨"keep", none, [], 0, 0⟩], [], []⟩ ⟨["gone"], [("keep", "m")]⟩ hwf

/-! ## C10: handlers record what they create -/

/-- The recording invariant between a pre-scene and a post-scene: every
object name present afterwards was either present before or is recorded
in `created`, and every modifier attached afterwards was either already
attached to the like-named object before or is recorded in `mods`. -/
def RecordsInv (s s' : List SceneObject) (created : List String)
    (mods : List (String × String)) : Prop :=
  (∀ n, n ∈ sceneNames s' → n ∈ sceneNames s ∨ n ∈ created) ∧
  (∀ o' ∈ s', ∀ m ∈ o'.modifiers,
    (o'.name, m.name) ∈ mods ∨ ∃ o ∈ s, o.name = o'.name ∧ m ∈ o.modifiers)

/-- An unchanged scene trivially satisfies the invariant. -/
theorem RecordsInv.refl (s : List SceneObject) (created : List String)
    (mods : List (String × String)) : RecordsInv s s created mods := by
  constructor
  · intro n hn; exact Or.inl hn
  · intro o' ho' m hm; exact Or.inr ⟨o', ho', rfl, hm⟩

/-- The invariant composes along successive scene mutations. -/
theorem RecordsInv.trans {s s1 s2 : List SceneObject}
    {c1 c2 : List String} {m1 m2 : List (String × String)}
    (h1 : RecordsInv s s1 c1 m1) (h2 : RecordsInv s1 s2 c2 m2) :
    RecordsInv s s2 (c1 ++ c2) (m1 ++ m2) := by
  constructor
  · intro n hn
    rcases h2.1 n hn with hn1 | hc2
    · rcases h1.1 n hn1 with h | h
      · exact Or.inl h
      · exact Or.inr (List.mem_append_left c2 h)
    · exact Or.inr (List.mem_append_right c1 hc2)
  · intro o'' ho'' m hm
    rcases h2.2 o'' ho'' m hm with hp | ⟨o', ho', hname, hm'⟩
    · exact Or.inl (List.mem_append_right m1 hp)
    · rcases h1.2 o' ho' m hm' with hp | ⟨o, ho, hname', hm''⟩
      · rw [← hname]
        exact Or.inl (List.mem_append_left m2 hp)
      · exact Or.inr ⟨o, ho, hname'.trans hname, hm''⟩

/-- Weakening: more recorded names / pairs keep the invariant. -/
theorem RecordsInv.mono {s s' : List SceneObject}
    {c c' : List String} {m m' : List (String × String)}
    (h : RecordsInv s s' c m) (hc : ∀ x ∈ c, x ∈ c')
    (hm : ∀ x ∈ m, x ∈ m') : RecordsInv s s' c' m' := by
  constructor
  · intro n hn
    rcases h.1 n hn with h1 | h1
    · exact Or.inl h1
    · exact Or.inr (hc n h1)
  · intro o' ho' md hmd
    rcases h.2 o' ho' md hmd with h1 | h1
    · exact Or.inl (hm _ h1)
    · exact Or.inr h1

/-- Creating (and linking) a modifier-free object is covered by
recording its name. -/
theorem RecordsInv.append (s : List SceneObject) (obj : SceneObject)
    (hobj : obj.modifiers = []) (mods : List (String × String)) :
    RecordsInv s (s ++ [obj]) [obj.name] mods := by
  constructor
  · intro n hn
    simp only [sceneNames, List.map_append, List.mem_append] at hn
    rcases hn with h | h
    · exact Or.inl h
    · simp at h
      simp [h]
  · intro o' ho' m hm
    rcases List.mem_append.mp ho' with h | h
    · exact Or.inr ⟨o', h, rfl, hm⟩
    · simp at h
      subst h
      rw [hobj] at hm
      simp at hm

/-- Attaching one new modifier to the object named `n` is covered by
recording the pair `(n, its name)`. -/
theorem RecordsInv.addMod (s : List SceneObject) (n : String) (m : Modifier)
    (created : List String) :
    RecordsInv s
      (updateObj (fun o => { o with modifiers := o.modifiers ++ [m] }) s n)
      created [(n, m.name)] := by
  constructor
  · intro x hx
    unfold sceneNames at hx ⊢
    rw [updateObj_map_name
      (fun o => { o with modifiers := o.modifiers ++ [m] })
      (fun _ => rfl) s n] at hx
    exact Or.inl hx
  · intro o' ho' md hmd
    rcases updateObj_mem _ s n o' ho' with h | ⟨o, ho, hon, he⟩
    · exact Or.inr ⟨o', h, rfl, hmd⟩
    · subst he
      simp only [List.mem_append] at hmd
      rcases hmd with h | h
      · exact Or.inr ⟨o, ho, rfl, h⟩
      · simp at h
        subst h
        simp [hon]

/-- An update that changes neither names nor modifiers (material slots,
transforms) is covered without recording anything. -/
theorem RecordsInv.updatePreserve (s : List SceneObject) (n : String)
    (f : SceneObject → SceneObject) (hfn : ∀ o, (f o).name = o.name)
    (hfm : ∀ o, (f o).modifiers = o.modifiers)
    (created : List String) (mods : List (String × String)) :
    RecordsInv s (updateObj f s n) created mods := by
  constructor
  · intro x hx
    unfold sceneNames at hx ⊢
    rw [updateObj_map_name f hfn s n] at hx
    exact Or.inl hx
  · intro o' ho' md hmd
    rcases updateObj_mem f s n o' ho' with h | ⟨o, ho, hon, he⟩
    · exact Or.inr ⟨o', h, rfl, hmd⟩
    · subst he
      rw [hfm o] at hmd
      exact Or.inr ⟨o, ho, (hfn o).symm, hmd⟩

/-- `_op_add_cube` on success records everything it creates. -/
theorem op_add_cube_records (params : Params) (w : World)
    (he : (op_add_cube params w).err = none) :
    RecordsInv w.scene (op_add_cube params w).world.scene
      (op_add_cube params w).created (op_add_cube params w).mods := by
  revert he
  simp only [op_add_cube]
  cases pyFloat ((dictGet params "size").getD (.num 1)) with
  | error e => intro he; simp at he
  | ok q =>
    cases unitArg (dictGet params "units") with
    | error e => intro he; simp at he
    | ok u =>
      cases hn : (dictGet params "name").getD (.str "AI_Cube") <;>
        intro he <;> try simp at he
      exact RecordsInv.append w.scene _ rfl _

/-- `_op_add_sphere` on success records everything it creates. -/
theorem op_add_sphere_records (params : Params) (w : World)
    (he : (op_add_sphere params w).err = none) :
    RecordsInv w.scene (op_add_sphere params w).world.scene
      (op_add_sphere params w).created (op_add_sphere params w).mods := by
  revert he
  simp only [op_add_sphere]
  cases pyFloat ((dictGet params "radius").getD (.num (1 / 2))) with
  | error e => intro he; simp at he
  | ok q =>
    cases unitArg (dictGet params "units") with
    | error e => intro he; simp at he
    | ok u =>
      cases hn : (dictGet params "name").getD (.str "AI_Sphere") <;>
        intro he <;> try simp at he
      exact RecordsInv.append w.scene _ rfl _

/-- `_op_add_cylinder` on success records everything it creates. -/
theorem op_add_cylinder_records (params : Params) (w : World)
    (he : (op_add_cylinder params w).err = none) :
    RecordsInv w.scene (op_add_cylinder params w).world.scene
      (op_add_cylinder params w).created (op_add_cylinder params w).mods := by
  revert he
  simp only [op_add_cylinder]
  cases pyFloat ((dictGet params "radius").getD (.num (1 / 2))) with
  | error e => intro he; simp at he
  | ok q =>
    cases unitArg (dictGet params "units") with
    | error e => intro he; simp at he
    | ok u =>
      cases pyFloat ((dictGet params "depth").getD (.num 1)) with
      | error e => intro he; simp at he
      | ok d =>
        cases hn : (dictGet params "name").getD (.str "AI_Cylinder") <;>
          intro he <;> try simp at he
        exact RecordsInv.append w.scene _ rfl _

/-- `_op_boolean_difference` on success records its modifier. -/
theorem op_boolean_difference_records (params : Params) (w : World)
    (he : (op_boolean_difference params w).err = none) :
    RecordsInv w.scene (op_boolean_difference params w).world.scene
      (op_boolean_difference params w).created
      (op_boolean_difference params w).mods := by
  revert he
  simp only [op_boolean_difference]
  split
  · intro he; simp at he
  · cases sceneKeyArg (dictGet params "target") with
    | error e => intro he; simp at he
    | ok tn =>
      cases sceneKeyArg (dictGet params "cutter") with
      | error e => intro he; simp at he
      | ok cn =>
        dsimp only
        cases htg : sceneGet w.scene tn with
        | none => cases sceneGet w.scene cn <;> intro he <;> simp at he
        | some target =>
          cases sceneGet w.scene cn with
          | none => intro he; simp at he
          | some cutter =>
            intro he
            simpa using RecordsInv.addMod w.scene target.name _ []

/-- `_op_bevel` on success records its modifier. -/
theorem op_bevel_records (params : Params) (w : World)
    (he : (op_bevel params w).err = none) :
    RecordsInv w.scene (op_bevel params w).world.scene
      (op_bevel params w).created (op_bevel params w).mods := by
  revert he
  simp only [op_bevel]
  split
  · intro he; simp at he
  · cases sceneKeyArg (dictGet params "target") with
    | error e => intro he; simp at he
    | ok tn =>
      dsimp only
      cases htg : sceneGet w.scene tn with
      | none => intro he; simp at he
      | some target =>
        cases pyFloat ((dictGet params "width").getD (.num (1 / 100))) with
        | error e => intro he; simp at he
        | ok wv =>
          cases unitArg (dictGet params "units") with
          | error e => intro he; simp at he
          | ok u =>
            cases pyInt ((dictGet params "segments").getD (.num 2)) with
            | error e => intro he; simp at he
            | ok sg =>
              intro he
              simpa using RecordsInv.addMod w.scene target.name _ []

/-- `_op_set_material` on success changes only material slots. -/
theorem op_set_material_records (params : Params) (w : World)
    (he : (op_set_material params w).err = none) :
    RecordsInv w.scene (op_set_material params w).world.scene
      (op_set_material params w).created (op_set_material params w).mods := by
  revert he
  simp only [op_set_material]
  split
  · intro he; simp at he
  · cases sceneKeyArg (dictGet params "target") with
    | error e => intro he; simp at he
    | ok tn =>
      dsimp only
      cases htg : sceneGet w.scene tn with
      | none => intro he; simp at he
      | some target =>
        dsimp only
        cases (dictGet params "preset").getD .null with
        | str p =>
          dsimp only
          by_cases hp : List.contains w.presets p = true
          · simp only [hp, if_true]
            cases target.data with
            | none => intro he; simp at he
            | some md =>
              intro he
              refine RecordsInv.mono ?_ (fun x hx => hx) (fun x hx => hx)
              simpa using RecordsInv.updatePreserve w.scene target.name
                (fun o =>
                  let nd : MeshData :=
                    if md.materials = [] then
                      { md with materials := ["AI_" ++ p] }
                    else
                      { md with materials := ("AI_" ++ p) :: md.materials.tail }
                  { o with data := some nd })
                (fun _ => rfl) (fun _ => rfl) [] []
          · simp only [hp, if_false]
            intro he; simp at he
        | null => intro he; simp at he
        | bool b => intro he; simp at he
        | num q => intro he; simp at he
        | arr xs => intro he; simp at he
        | obj kvs => intro he; simp at he

/-- `_op_array_radial` on success records its anchor empty and its array
modifier: the composite of linking the (modifier-free) empty, attaching
the array modifier to the source, and adjusting the empty's transform. -/
theorem op_array_radial_records (params : Params) (w : World)
    (he : (op_array_radial params w).err = none) :
    RecordsInv w.scene (op_array_radial params w).world.scene
      (op_array_radial params w).created (op_array_radial params w).mods := by
  revert he
  simp only [op_array_radial]
  split
  · intro he; simp at he
  · cases sceneKeyArg (dictGet params "source") with
    | error e => intro he; simp at he
    | ok sn =>
      dsimp only
      cases hsg : sceneGet w.scene sn with
      | none => intro he; simp at he
      | some src =>
        cases pyInt ((dictGet params "count").getD (.num 6)) with
        | error e => intro he; simp at he
        | ok c =>
          cases pyFloat ((dictGet params "radius").getD (.num 1)) with
          | error e => intro he; simp at he
          | ok r =>
            cases unitArg (dictGet params "units") with
            | error e => intro he; simp at he
            | ok u =>
              intro he
              dsimp only
              refine RecordsInv.mono
                (RecordsInv.trans
                  (RecordsInv.trans
                    (RecordsInv.append w.scene
                      ⟨uniquifyName (sn ++ "_RadialEmpty") (sceneNames w.scene),
                       none, [], 0, 0⟩ rfl [])
                    (RecordsInv.addMod _ src.name
                      { name := uniquifyName "AI_Array"
                          (src.modifiers.map Modifier.name),
                        mtype := "ARRAY", count := some (max 1 c),
                        useRelativeOffset := some false,
                        useObjectOffset := some true,
                        objectRef := some (uniquifyName (sn ++ "_RadialEmpty")
                          (sceneNames w.scene)) } []))
                  (RecordsInv.updatePreserve _
                    (uniquifyName (sn ++ "_RadialEmpty") (sceneNames w.scene))
                    (fun o =>
                      { o with
                        rotZ := tauLit / ((max 1 c : ℤ) : ℚ),
                        locX := convert_length r u })
                    (fun _ => rfl) (fun _ => rfl) [] []))
                ?_ ?_
              · intro x hx
                simpa using hx
              · intro x hx
                simpa using hx

/-- On an error-free step, every scene entity the handler created or
attached is recorded in its context deltas (the general recording
invariant of C10, restricted to steps that return — see
`c10_counterexample` for why the restriction is necessary). -/
theorem stepCore_records (w : World) (step : PlanStep)
    (he : (stepCore w step).err = none) :
    RecordsInv w.scene (stepCore w step).world.scene
      (stepCore w step).created (stepCore w step).mods := by
  simp only [stepCore] at he ⊢
  split_ifs at he ⊢ with h1 h2 h3 h4 h5 h6 h7
  · exact op_add_cube_records _ _ he
  · exact op_add_sphere_records _ _ he
  · exact op_add_cylinder_records _ _ he
  · exact op_boolean_difference_records _ _ he
  · exact op_array_radial_records _ _ he
  · exact op_bevel_records _ _ he
  · exact op_set_material_records _ _ he

/-- The intermediate state of `_op_array_radial` right after the anchor
empty has been created, linked into the scene, and appended to
`step_ctx.created_objects` — and before `source.modifiers.new` runs. -/
structure RadialMid where
  world : World
  sourceName : String
  sourceMods : List Modifier
  emptyName : String
  countVal : Int
  radiusVal : ℚ

/-- Phase 1 of `_op_array_radial` (source lines up to
`step_ctx.created_objects.append(empty.name)`): validate parameters,
resolve the source, create and link the anchor empty. -/
def radial_phase1 (params : Params) (w : World) : Except String RadialMid :=
  let sRaw := dictGet params "source"
  if pyFalsyOpt sRaw then .error "ARRAY_RADIAL 需要 source 参数"
  else
    match sceneKeyArg sRaw with
    | .error e => .error e
    | .ok sName =>
    match sceneGet w.scene sName with
    | none => .error "源对象不存在"
    | some source =>
    match pyInt ((dictGet params "count").getD (.num 6)) with
    | .error e => .error e
    | .ok count =>
    match pyFloat ((dictGet params "radius").getD (.num 1)) with
    | .error e => .error e
    | .ok rawRadius =>
    match unitArg (dictGet params "units") with
    | .error e => .error e
    | .ok unit =>
      let emptyName := uniquifyName (sName ++ "_RadialEmpty") (sceneNames w.scene)
      .ok ⟨{ w with scene := w.scene ++ [⟨emptyName, none, [], 0, 0⟩] },
           source.name, source.modifiers, emptyName, count,
           convert_length rawRadius unit⟩

/-- The name `source.modifiers.new` assigns to the array modifier. -/
def radial_modName (mid : RadialMid) : String :=
  uniquifyName "AI_Array" (mid.sourceMods.map Modifier.name)

/-- Phase 2 of `_op_array_radial`: attach the array modifier to the
source and position the already-linked anchor. -/
def radial_phase2 (mid : RadialMid) : World :=
  let modName := radial_modName mid
  let m : Modifier :=
    { name := modName, mtype := "ARRAY", count := some (max 1 mid.countVal),
      useRelativeOffset := some false, useObjectOffset := some true,
      objectRef := some mid.emptyName }
  let scene2 :=
    updateObj (fun o => { o with modifiers := o.modifiers ++ [m] })
      mid.world.scene mid.sourceName
  let rotVal : ℚ := tauLit / ((max 1 mid.countVal : ℤ) : ℚ)
  let scene3 :=
    updateObj (fun o => { o with rotZ := rotVal, locX := mid.radiusVal })
      scene2 mid.emptyName
  { mid.world with scene := scene3 }

/-- C10 (amended): (1) `_op_array_radial` decomposes into phase 1 —
which creates and links the anchor empty and contributes exactly
`[emptyName]` to the created-objects accumulator — followed by phase 2,
which attaches the array modifier; so if anything inside the handler
failed after the anchor exists, the anchor would already be tracked.
(2) After phase 1 the scene is exactly the old scene plus the (still
modifier-free) anchor: the array modifier does not exist yet when the
anchor is recorded.  (3) In general every handler that *returns without
error* has recorded each object it created and each modifier it
attached (`stepCore_records`); the unrestricted form of the claim is
false, see `c10_counterexample`. -/
theorem c10_radial_phases_and_recording :
    (∀ (params : Params) (w : World),
      op_array_radial params w =
        match radial_phase1 params w with
        | .error e => ⟨w, [], [], some e⟩
        | .ok mid =>
          ⟨radial_phase2 mid, [mid.emptyName],
           [(mid.sourceName, radial_modName mid)], none⟩) ∧
    (∀ (params : Params) (w : World) (mid : RadialMid),
      radial_phase1 params w = .ok mid →
      mid.world.scene = w.scene ++ [⟨mid.emptyName, none, [], 0, 0⟩]) ∧
    (∀ (w : World) (step : PlanStep), (stepCore w step).err = none →
      RecordsInv w.scene (stepCore w step).world.scene
        (stepCore w step).created (stepCore w step).mods) := by
  refine ⟨?_, ?_, fun w step he => stepCore_records w step he⟩
  · intro params w
    simp only [op_array_radial, radial_phase1, radial_phase2, radial_modName]
    split
    · rfl
    · cases sceneKeyArg (dictGet params "source") with
      | error e => rfl
      | ok sn =>
        dsimp only
        cases sceneGet w.scene sn with
        | none => rfl
        | some src =>
          cases pyInt ((dictGet params "count").getD (.num 6)) with
          | error e => rfl
          | ok c =>
            cases pyFloat ((dictGet params "radius").getD (.num 1)) with
            | error e => rfl
            | ok r =>
              cases unitArg (dictGet params "units") with
              | error e => rfl
              | ok u => rfl
  · intro params w mid h
    revert h
    simp only [radial_phase1]
    split
    · intro h; simp at h
    · cases sceneKeyArg (dictGet params "source") with
      | error e => intro h; simp at h
      | ok sn =>
        dsimp only
        cases sceneGet w.scene sn with
        | none => intro h; simp at h
        | some src =>
          cases pyInt ((dictGet params "count").getD (.num 6)) with
          | error e => intro h; simp at h
          | ok c =>
            cases pyFloat ((dictGet params "radius").getD (.num 1)) with
            | error e => intro h; simp at h
            | ok r =>
              cases unitArg (dictGet params "units") with
              | error e => intro h; simp at h
              | ok u =>
                intro h
                simp only [Except.ok.injEq] at h
                subst h
                rfl

/-- Counterexample for C10 as stated ("every handler records each scene
entity it creates in the accumulator immediately after creating it"):
`_op_add_cube` first creates the primitive (which enters the scene under
the host default name "Cube") and only *after* the `obj.name = name`
rename appends the name to the accumulator; with a non-string `name`
parameter the rename raises `TypeError`, so the handler ends with the
new object in the scene and an empty created-objects delta — the
recording invariant fails for this step. -/
theorem c10_counterexample :
    (op_add_cube [("name", JVal.num 5)] ⟨[], [], []⟩).err.isSome = true ∧
    sceneNames (op_add_cube [("name", JVal.num 5)] ⟨[], [], []⟩).world.scene =
      ["Cube"] ∧
    (op_add_cube [("name", JVal.num 5)] ⟨[], [], []⟩).created = [] ∧
    ¬ RecordsInv ([] : List SceneObject)
        (op_add_cube [("name", JVal.num 5)] ⟨[], [], []⟩).world.scene
        (op_add_cube [("name", JVal.num 5)] ⟨[], [], []⟩).created
        (op_add_cube [("name", JVal.num 5)] ⟨[], [], []⟩).mods := by
  have heval : op_add_cube [("name", JVal.num 5)] ⟨[], [], []⟩ =
      ⟨⟨[⟨"Cube", some ⟨"CUBE", [1], []⟩, [], 0, 0⟩], [], []⟩, [], [],
       some "TypeError: Object.name expects a string"⟩ := by
    norm_num +decide [op_add_cube, dictGet, pyFloat, unitArg, convert_length,
      uniquifyName, uniquifyAux, candName, sceneNames]
  refine ⟨by rw [heval]; rfl, by rw [heval]; rfl, by rw [heval], ?_⟩
  rw [heval]
  intro h
  have h2 := h.1 "Cube" (by simp [sceneNames])
  simp [sceneNames] at h2

/-- Witness for C10 at a concrete input: a radial-array step on a scene
holding the source object "S".  Phase 1 succeeds and its intermediate
scene is the old scene plus the modifier-free anchor "S_RadialEmpty";
the full (error-free) step satisfies the recording invariant. -/
theorem c10_radial_phases_and_recording_witness :
    (radial_phase1 [("source", JVal.str "S")]
        ⟨[⟨"S", some ⟨"CUBE", [1], []⟩, [], 0, 0⟩], [], []⟩ =
      .ok ⟨⟨[⟨"S", some ⟨"CUBE", [1], []⟩, [], 0, 0⟩,
             ⟨"S_RadialEmpty", none, [], 0, 0⟩], [], []⟩,
           "S", [], "S_RadialEmpty", 6, 1⟩) ∧
    (⟨⟨[⟨"S", some ⟨"CUBE", [1], []⟩, [], 0, 0⟩,
        ⟨"S_RadialEmpty", none, [], 0, 0⟩], [], []⟩,
      "S", [], "S_RadialEmpty", 6, 1⟩ : RadialMid).world.scene =
      (⟨[⟨"S", some ⟨"CUBE", [1], []⟩, [], 0, 0⟩], [], []⟩ : World).scene ++
        [⟨"S_RadialEmpty", none, [], 0, 0⟩] ∧
    RecordsInv (⟨[⟨"S", some ⟨"CUBE", [1], []⟩, [], 0, 0⟩], [], []⟩ : World).scene
      (stepCore ⟨[⟨"S", some ⟨"CUBE", [1], []⟩, [], 0, 0⟩], [], []⟩
        ⟨"ARRAY_RADIAL", [("source", JVal.str "S")], none⟩).world.scene
      (stepCore ⟨[⟨"S", some ⟨"CUBE", [1], []⟩, [], 0, 0⟩], [], []⟩
        ⟨"ARRAY_RADIAL", [("source", JVal.str "S")], none⟩).created
      (stepCore ⟨[⟨"S", some ⟨"CUBE", [1], []⟩, [], 0, 0⟩], [], []⟩
        ⟨"ARRAY_RADIAL", [("source", JVal.str "S")], none⟩).mods := by
  have h1 : radial_phase1 [("source", JVal.str "S")]
      ⟨[⟨"S", some ⟨"CUBE", [1], []⟩, [], 0, 0⟩], [], []⟩ =
      .ok ⟨⟨[⟨"S", some ⟨"CUBE", [1], []⟩, [], 0, 0⟩,
             ⟨"S_RadialEmpty", none, [], 0, 0⟩], [], []⟩,
           "S", [], "S_RadialEmpty", 6, 1⟩ := by
    norm_num +decide [radial_phase1, dictGet, pyFalsyOpt, pyFalsy, sceneKeyArg,
      sceneGet, List.find?, pyInt, pyFloat, unitArg, convert_length,
      uniquifyName, uniquifyAux, candName, sceneNames, Rat.num_ofNat,
      Rat.den_ofNat, Int.tdiv]
  have he : (stepCore ⟨[⟨"S", some ⟨"CUBE", [1], []⟩, [], 0, 0⟩], [], []⟩
      ⟨"ARRAY_RADIAL", [("source", JVal.str "S")], none⟩).err = none := by
    norm_num +decide [stepCore, op_array_radial, dictGet, pyFalsyOpt, pyFalsy,
      sceneKeyArg, sceneGet, List.find?, pyInt, pyFloat, unitArg,
      convert_length, uniquifyName, uniquifyAux, candName, sceneNames,
      Rat.num_ofNat, Rat.den_ofNat, Int.tdiv]
  exact ⟨h1,
    c10_radial_phases_and_recording.2.1 _ _ _ h1,
    c10_radial_phases_and_recording.2.2 _ _ he⟩

/-! ## Remote planner client (`planner_client.py`) -/

/-- `{"id", "prompt", "units", "steps"}` of the source's validation. -/
def requiredKeys : List String := ["id", "prompt", "units", "steps"]

/-- What Python's `set.issubset(plan_data)` iterates: a dict yields its
keys; a list yields its elements (non-string elements can never equal a
required key, so only the string ones matter); a string yields its
characters; other values raise `TypeError`. -/
def pyIterKeys : JVal → Except String (List String)
  | .obj kvs => .ok (kvs.map Prod.fst)
  | .arr xs => .ok (xs.filterMap (fun v => match v with
      | .str s => some s
      | _ => none))
  | .str s => .ok (s.toList.map (fun c => String.mk [c]))
  | _ => .error "TypeError: argument of type is not iterable"

/-- What `for step in plan_data.get("steps", [])` iterates. -/
def pyIterList : JVal → Except String (List JVal)
  | .arr xs => .ok xs
  | .str s => .ok (s.toList.map (fun c => .str (String.mk [c])))
  | .obj kvs => .ok (kvs.map (fun kv => .str kv.1))
  | _ => .error "TypeError: object is not iterable"

/-- `step_data.get("notes")`: a missing key and a JSON null both come
back as Python `None`. -/
def notesConv : Option JVal → Option JVal
  | some .null => none
  | x => x

/-- `PlannerClient._parse_step`: a non-dict step raises at
`step_data.get` (`AttributeError`); a falsy `op` and a non-dict `params`
raise the source's validation errors. -/
def parse_step : JVal → Except String PlanStep
  | .obj kvs =>
    let op := dictGet kvs "op"
    let params := (dictGet kvs "params").getD (.obj [])
    let notes := dictGet kvs "notes"
    if pyFalsyOpt op then .error "Planner 返回的步骤缺少 op 字段"
    else
      match params with
      | .obj pkvs => .ok ⟨pyStr (op.getD .null), pkvs, notesConv notes⟩
      | _ => .error "步骤参数必须是字典"
  | _ => .error "AttributeError: object has no attribute get"

/-- The list comprehension `[self._parse_step(step) for step in ...]`:
left to right, stopping at the first raised error. -/
def parseSteps : List JVal → Except String (List PlanStep)
  | [] => .ok []
  | s :: rest =>
    match parse_step s with
    | .error e => .error e
    | .ok p =>
      match parseSteps rest with
      | .error e => .error e
      | .ok ps => .ok (p :: ps)

/-- `PlannerClient.generate_plan`, from the point where the HTTP
collaborator has returned its parsed JSON dict `response` onwards:
`plan_data` is the value under the "plan" key when that key is present,
else the whole response; the four required keys must be present; each
step is decoded by `_parse_step`; the resulting `ModelingPlan` carries
stringified `id`/`prompt`/`units` (the latter defaulting to the `units`
argument of the call). -/
def planner_generate_plan (units : String)
    (response : List (String × JVal)) : Except String ModelingPlan :=
  let plan_data := (dictGet response "plan").getD (.obj response)
  match pyIterKeys plan_data with
  | .error e => .error e
  | .ok ks =>
    if requiredKeys.all (fun k => ks.contains k) then
      match plan_data with
      | .obj kvs =>
        match pyIterList ((dictGet kvs "steps").getD (.arr [])) with
        | .error e => .error e
        | .ok items =>
          match parseSteps items with
          | .error e => .error e
          | .ok steps =>
            .ok ⟨pyStr ((dictGet kvs "id").getD .null),
                 pyStr ((dictGet kvs "prompt").getD .null),
                 pyStr ((dictGet kvs "units").getD (.str units)),
                 steps⟩
      | _ => .error "AttributeError: object has no attribute get"
    else .error "Planner 返回数据不完整"

/-- Claim-side validity of one response step: it must be an object whose
`op` is present and truthy and whose `params` (defaulting to the empty
dict) is a dict. -/
def stepInvalid (s : JVal) : Bool :=
  match s with
  | .obj kvs =>
    pyFalsyOpt (dictGet kvs "op") ||
    (match (dictGet kvs "params").getD (.obj []) with
     | .obj _ => false
     | _ => true)
  | _ => true

/-- An invalid step makes `_parse_step` raise. -/
theorem parse_step_of_invalid (s : JVal) (h : stepInvalid s = true) :
    ∃ e, parse_step s = .error e := by
  cases s with
  | obj kvs =>
    simp only [stepInvalid, Bool.or_eq_true] at h
    simp only [parse_step]
    rcases h with h | h
    · simp [h]
    · by_cases hop : pyFalsyOpt (dictGet kvs "op") = true
      · simp [hop]
      · simp only [hop, if_false]
        cases hp : (dictGet kvs "params").getD (.obj []) <;>
          simp_all
  | null => exact ⟨_, rfl⟩
  | bool b => exact ⟨_, rfl⟩
  | num q => exact ⟨_, rfl⟩
  | str s => exact ⟨_, rfl⟩
  | arr xs => exact ⟨_, rfl⟩

/-- A valid step decodes to a `PlanStep`. -/
theorem parse_step_of_valid (s : JVal) (h : stepInvalid s = false) :
    ∃ p, parse_step s = .ok p := by
  cases s with
  | obj kvs =>
    simp only [stepInvalid, Bool.or_eq_false_iff] at h
    obtain ⟨hop, hpar⟩ := h
    simp only [parse_step, hop, if_false]
    cases hp : (dictGet kvs "params").getD (.obj []) <;> rw [hp] at hpar <;>
      simp_all
  | null => simp [stepInvalid] at h
  | bool b => simp [stepInvalid] at h
  | num q => simp [stepInvalid] at h
  | str s => simp [stepInvalid] at h
  | arr xs => simp [stepInvalid] at h

/-- With every step valid, the comprehension returns one `PlanStep` per
input, in order. -/
theorem parseSteps_of_valid (ss : List JVal)
    (h : ∀ s ∈ ss, stepInvalid s = false) :
    ∃ l, parseSteps ss = .ok l ∧ l.length = ss.length := by
  induction ss with
  | nil => exact ⟨[], rfl, rfl⟩
  | cons s rest ih =>
    obtain ⟨p, hp⟩ := parse_step_of_valid s (h s (List.mem_cons_self s rest))
    obtain ⟨l, hl, hlen⟩ := ih (fun x hx => h x (List.mem_cons_of_mem s hx))
    exact ⟨p :: l, by simp [parseSteps, hp, hl], by simp [hlen]⟩

/-- With some step invalid, the comprehension raises. -/
theorem parseSteps_of_invalid (ss : List JVal)
    (h : ∃ s ∈ ss, stepInvalid s = true) :
    ∃ e, parseSteps ss = .error e := by
  induction ss with
  | nil => simp at h
  | cons s rest ih =>
    rcases h with ⟨x, hx, hinv⟩
    rcases List.mem_cons.mp hx with rfl | hx'
    · obtain ⟨e, he⟩ := parse_step_of_invalid x hinv
      exact ⟨e, by simp [parseSteps, he]⟩
    · cases hp : parse_step s with
      | error e => exact ⟨e, by simp [parseSteps, hp]⟩
      | ok p =>
        obtain ⟨e, he⟩ := ih ⟨x, hx', hinv⟩
        exact ⟨e, by simp [parseSteps, hp, he]⟩

/-- C8: decoding a remote planner response (the "plan" value when that
key is present, else the top level): a missing required key
(`id`/`prompt`/`units`/`steps`) raises a validation error; a step with a
missing or falsy `op` or a non-dict `params` raises a validation error;
otherwise the client returns a `ModelingPlan` with exactly one
`PlanStep` per response step. -/
theorem c8_planner_decode (units : String) (resp : List (String × JVal))
    (kvs : List (String × JVal))
    (hpd : (dictGet resp "plan").getD (.obj resp) = .obj kvs) :
    ((¬ ∀ k ∈ requiredKeys, k ∈ kvs.map Prod.fst) →
      ∃ e, planner_generate_plan units resp = .error e) ∧
    (∀ ss, (∀ k ∈ requiredKeys, k ∈ kvs.map Prod.fst) →
      dictGet kvs "steps" = some (.arr ss) →
      ((∃ s ∈ ss, stepInvalid s = true) →
        ∃ e, planner_generate_plan units resp = .error e) ∧
      ((∀ s ∈ ss, stepInvalid s = false) →
        ∃ plan, planner_generate_plan units resp = .ok plan ∧
          plan.steps.length = ss.length)) := by
  constructor
  · intro hmiss
    have hall : (requiredKeys.all (fun k => (kvs.map Prod.fst).contains k)) = false := by
      rw [Bool.eq_false_iff]
      intro hc
      rw [List.all_eq_true] at hc
      exact hmiss (fun k hk => by
        have := hc k hk
        simpa [List.elem_iff] using this)
    refine ⟨"Planner 返回数据不完整", ?_⟩
    simp only [planner_generate_plan, hpd, pyIterKeys, hall]
    rfl
  · intro ss hall hss
    have hallb : (requiredKeys.all (fun k => (kvs.map Prod.fst).contains k)) = true := by
      rw [List.all_eq_true]
      intro k hk
      simpa [List.elem_iff] using hall k hk
    constructor
    · intro hinv
      obtain ⟨e, he⟩ := parseSteps_of_invalid ss hinv
      refine ⟨e, ?_⟩
      simp only [planner_generate_plan, hpd, pyIterKeys, hallb, if_true, hss,
        Option.getD_some, pyIterList, he]
    · intro hval
      obtain ⟨l, hl, hlen⟩ := parseSteps_of_valid ss hval
      refine ⟨⟨pyStr ((dictGet kvs "id").getD .null),
               pyStr ((dictGet kvs "prompt").getD .null),
               pyStr ((dictGet kvs "units").getD (.str units)), l⟩, ?_, hlen⟩
      simp only [planner_generate_plan, hpd, pyIterKeys, hallb, if_true, hss,
        Option.getD_some, pyIterList, hl]

/-- Witness for C8 at a concrete response carrying one valid step. -/
theorem c8_planner_decode_witness :
    ∃ plan, planner_generate_plan "M"
        [("id", .str "x"), ("prompt", .str "p"), ("units", .str "M"),
         ("steps", .arr [.obj [("op", .str "ADD_CUBE"), ("params", .obj [])]])] =
      .ok plan ∧ plan.steps.length = 1 := by
  have hpd : (dictGet [("id", JVal.str "x"), ("prompt", JVal.str "p"),
      ("units", JVal.str "M"),
      ("steps", JVal.arr [JVal.obj [("op", JVal.str "ADD_CUBE"),
        ("params", JVal.obj [])]])] "plan").getD
      (.obj [("id", JVal.str "x"), ("prompt", JVal.str "p"),
        ("units", JVal.str "M"),
        ("steps", JVal.arr [JVal.obj [("op", JVal.str "ADD_CUBE"),
          ("params", JVal.obj [])]])]) =
      .obj [("id", JVal.str "x"), ("prompt", JVal.str "p"),
        ("units", JVal.str "M"),
        ("steps", JVal.arr [JVal.obj [("op", JVal.str "ADD_CUBE"),
          ("params", JVal.obj [])]])] := by
    norm_num +decide [dictGet, List.find?]
  have h := (c8_planner_decode "M" _ _ hpd).2
    [JVal.obj [("op", JVal.str "ADD_CUBE"), ("params", JVal.obj [])]]
    (by intro k hk; fin_cases hk <;> simp)
    (by norm_num +decide [dictGet, List.find?])
  exact (by simpa using h.2 (by
    intro s hs
    simp only [List.mem_singleton] at hs
    subst hs
    norm_num +decide [stepInvalid, pyFalsyOpt, pyFalsy, dictGet, List.find?]))
